import Mathlib

/-!
# GriseoProxy: the Minecraft connection handler

A shallow embedding of `service/minecraft/handler.go` (`NewConnHandler` and
`badPacketPanicRecover`).  The handler is a straight-line program over two
sockets; it is embedded as a pure function from an environment (the results
of every external call it makes) to the returned pair `(net.Conn, error)`
together with the ordered trace of the external calls it performed.

External collaborators (the `go-mc` packet codec, the dialer, the access
lists, the message generators) are fields of the environment: the handler is
verified for every behaviour they can show. Where a property speaks of the
bytes on a socket, the uncompressed framing of go-mc relates them to the
packets the handler reads and writes.
-/

namespace GriseoProxy

/-! ## Data model -/

/-- Go `error` values the handler can return: the package sentinel created by
`errors.New("")` on line 22, or an error produced by a collaborator (socket,
codec, dialer), identified by a code. A collaborator can never produce the
sentinel, which is a value private to this package. -/
inductive GoError where
  | sentinel
  | external (code : Nat)
deriving DecidableEq

/-- Line 22: `var ErrSuccessfullyHandledMOTDRequest = errors.New("")`. -/
def ErrSuccessfullyHandledMOTDRequest : GoError := GoError.sentinel

/-- Line 24: `var ErrRejectedLogin = ErrSuccessfullyHandledMOTDRequest`. -/
def ErrRejectedLogin : GoError := ErrSuccessfullyHandledMOTDRequest

/-- The `packet.Packet` of go-mc: a packet id and the payload bytes. -/
structure Packet where
  ID : Int
  Data : List Nat
deriving DecidableEq

/-- The field values the handler passes to `packet.Marshal`:
`packet.VarInt` (int32), `packet.String`, `packet.UnsignedShort` (uint16),
`packet.Byte` (int8), and the chat component built by the message generators. -/
inductive Field where
  | varInt (v : Int)
  | string (v : String)
  | unsignedShort (v : Nat)
  | byte (v : Int)
  | chat (json : String)
deriving DecidableEq

/-- Outcome of `p.Scan(...)`: the decoded value, an error, or a run-time
panic (lines 27-28: "Non-Minecraft packet which uses go-mc packet scan method
may cause panic"). -/
inductive Scanned (α : Type) where
  | ok (value : α)
  | error (code : Nat)
  | fault

/-- The four handshake fields scanned on line 53. -/
structure Handshake where
  protocol : Int
  hostname : String
  port : Nat
  nextState : Int
deriving DecidableEq

/-- The name-access modes of `access` (`options.McNameMode`). -/
inductive Mode where
  | DefaultMode
  | AllowMode
  | BlockMode
deriving DecidableEq

/-- The part of `config.ConfigProxyService.Minecraft.OnlineCount` read here. -/
structure OnlineCount where
  EnableMaxLimit : Bool
  Max : Int

/-- The part of `Minecraft.NameAccess` read here. -/
structure NameAccess where
  ListTags : List String

/-- The part of `config.ConfigProxyService.Minecraft` read by the handler. -/
structure MinecraftConfig where
  EnableHostnameRewrite : Bool
  RewrittenHostname : String
  IgnoreFMLSuffix : Bool
  OnlineCount : OnlineCount
  NameAccess : NameAccess
  MotdDescription : String
  MotdFavicon : String

/-- The part of `config.ConfigProxyService` read by the handler. -/
structure ConfigProxyService where
  Name : String
  TargetAddress : String
  TargetPort : Nat
  Minecraft : MinecraftConfig

/-- The `transfer.Options` of the connection: the outbound dialer
(`Out.Dial(network, address)`, `none` meaning a connection was opened), the
name-access mode and the active-connection counter (`GetCount()`). -/
structure Options where
  Out : String → String → Option Nat
  McNameMode : Mode
  GetCount : Int

/-- Modelled from the spec: `common/set.StringSet` is a set of player names
with case-sensitive exact membership; here the list of its members. -/
abbrev StringSet := List String

/-- Modelled from the spec: `(*set.StringSet).Has`, case-sensitive exact
membership of a name. -/
def StringSet.Has (set : StringSet) (name : String) : Bool :=
  decide (name ∈ set)

/-- The results of the external calls of one invocation.
* `ReadPacket k p`: the `k`-th `conn.ReadPacket(&p)` on the client, given the
  packet variable before the call: its value after the call and the error.
* `ScanHandshake`, `ScanString`: `p.Scan` at lines 53 and 96.
* `encode`: the wire encoding of one field, used by `packet.Marshal`.
* `ClientWritePacket k p`: error of the `k`-th `conn.WritePacket` on the client.
* `BackendWritePacket k p`: error of the `k`-th `remoteMC.WritePacket`.
* `BackendWrite b`: error of `remote.Write(b)`.
* `GetTargetList`: `access.GetTargetList`, `none` when the tag does not
  resolve to a set (`common.Must` then panics).
* the three generators of the packets and messages sent to the client. -/
structure Env where
  ReadPacket : Nat → Packet → Packet × Option Nat
  ScanHandshake : Packet → Scanned Handshake
  ScanString : Packet → Scanned String
  encode : Field → List Nat
  ClientWritePacket : Nat → Packet → Option Nat
  BackendWritePacket : Nat → Packet → Option Nat
  BackendWrite : List Nat → Option Nat
  GetTargetList : String → Option StringSet
  generateMotdPacket : Int → ConfigProxyService → Options → Packet
  generatePlayerNumberLimitExceededMessage : ConfigProxyService → String → Field
  generateKickMessage : ConfigProxyService → String → Field

/-- The two sockets of one invocation: the accepted client connection `c`
(a `*net.TCPConn`, as the assertions on lines 107 and 141 require) and the
connection returned by `Out.Dial`. -/
inductive Conn where
  | client
  | backend
deriving DecidableEq

/-- One external call made by the handler, with its result. The index `k` of
a packet read or write is its ordinal among the calls of that kind on that
socket. -/
inductive Event where
  | ReadPacket (k : Nat) (p : Packet) (err : Option Nat)
  | WritePacket (c : Conn) (k : Nat) (p : Packet) (err : Option Nat)
  | Write (c : Conn) (bytes : List Nat) (err : Option Nat)
  | GetCount (n : Int)
  | GetTargetList (list : String) (found : Bool)
  | Has (list : String) (name : String) (hit : Bool)
  | Dial (network : String) (address : String) (err : Option Nat)
  | SetLinger (sec : Nat)
  | Close (c : Conn)
  | Recovered
deriving DecidableEq

/-- How the body of `NewConnHandler` ends: a `return` statement with its two
values, or a panic that unwinds to the deferred recover. -/
inductive Completion where
  | returned (conn : Option Conn) (err : Option GoError)
  | panicked
deriving DecidableEq

/-- A run of the body: how it ended and the calls made, in order. -/
structure Run where
  completion : Completion
  trace : List Event
deriving DecidableEq

/-- What the caller of `NewConnHandler` observes: the returned `net.Conn`
(`none` is `nil`), the returned `error` (`none` is `nil`) and the calls made. -/
structure Result where
  conn : Option Conn
  err : Option GoError
  trace : List Event
deriving DecidableEq

/-! ## Operations -/

/-- The `packet.Marshal(id, fields...)` of go-mc: the packet with that id
whose payload is the concatenation of the encoded fields. -/
def Marshal (env : Env) (id : Int) (fields : List Field) : Packet :=
  { ID := id, Data := (fields.map env.encode).flatten }

/-- The `strings.HasSuffix` of Go. -/
def HasSuffix (s suffix : String) : Bool :=
  suffix.data.isSuffixOf s.data

/-- Lines 61 and 146: `fmt.Sprintf("%v:%v", s.TargetAddress, s.TargetPort)`. -/
def dialAddress (s : ConfigProxyService) : String :=
  s.TargetAddress ++ ":" ++ toString s.TargetPort

/-- Lines 57-87, the branch `nextState == 1`. `p` is the handshake packet.
Apart from the dial, every call of this branch has its error dropped. -/
def statusBranch (env : Env) (s : ConfigProxyService) (options : Options)
    (protocol : Int) (p : Packet) : Run :=
  if s.Minecraft.MotdDescription = "" ∧ s.Minecraft.MotdFavicon = "" then
    match options.Out "tcp" (dialAddress s) with
    | some e =>
      { completion := .returned none (some (.external e)),
        trace := [.Dial "tcp" (dialAddress s) (some e)] }
    | none =>
      { completion := .returned (some .backend) none,
        trace := [.Dial "tcp" (dialAddress s) none,
                  .WritePacket .backend 0 p (env.BackendWritePacket 0 p),
                  .Write .backend [1, 0] (env.BackendWrite [1, 0])] }
  else
    let r1 := env.ReadPacket 1 p
    let motd := env.generateMotdPacket protocol s options
    let r2 := env.ReadPacket 2 r1.1
    { completion := .returned none (some ErrSuccessfullyHandledMOTDRequest),
      trace := [.ReadPacket 1 r1.1 r1.2,
                .WritePacket .client 0 motd (env.ClientWritePacket 0 motd),
                .ReadPacket 2 r2.1 r2.2,
                .WritePacket .client 1 r2.1 (env.ClientWritePacket 1 r2.1),
                .Close .client] }

/-- Lines 114-119: the loop over the configured list tags. The first
component is the final value of `hit`, or `none` when `common.Must` panics on
a tag that does not resolve; the loop stops at the first hit. -/
def scanLists (env : Env) (playerName : String) : List String → Option Bool × List Event
  | [] => (some false, [])
  | list :: rest =>
    match env.GetTargetList list with
    | none => (none, [.GetTargetList list false])
    | some set =>
      if set.Has playerName then
        (some true, [.GetTargetList list true, .Has list playerName true])
      else
        let r := scanLists env playerName rest
        (r.1, .GetTargetList list true :: .Has list playerName false :: r.2)

/-- Lines 120-133: the `switch options.McNameMode`; no case leaves
`accessibility` at its initial value `"DEFAULT"`. -/
def accessibilityOf (mode : Mode) (hit : Bool) : String :=
  match mode with
  | .AllowMode => if hit then "ALLOW" else "DENY"
  | .BlockMode => if hit then "REJECT" else "PASS"
  | .DefaultMode => "DEFAULT"

/-- Lines 112-134: the value of `accessibility` (`none` when the loop
panicked) and the list queries made. -/
def nameCheck (env : Env) (s : ConfigProxyService) (options : Options)
    (playerName : String) : Option String × List Event :=
  if options.McNameMode ≠ .DefaultMode then
    let r := scanLists env playerName s.Minecraft.NameAccess.ListTags
    match r.1 with
    | none => (none, r.2)
    | some hit => (some (accessibilityOf options.McNameMode hit), r.2)
  else (some "DEFAULT", [])

/-- Lines 159-165: the hostname written when rewriting is enabled. -/
def rewrittenHostname (s : ConfigProxyService) (hostname : String) : String :=
  if !s.Minecraft.IgnoreFMLSuffix && HasSuffix hostname "\x00FML\x00" then
    s.Minecraft.RewrittenHostname ++ "\x00FML\x00"
  else s.Minecraft.RewrittenHostname

/-- Lines 155-177: the handshake packet marshalled for the backend.
`packet.UnsignedShort(s.TargetPort)` is a conversion to uint16. -/
def forwardedHandshake (env : Env) (s : ConfigProxyService) (hs : Handshake) : Packet :=
  if s.Minecraft.EnableHostnameRewrite then
    Marshal env 0 [.varInt hs.protocol, .string (rewrittenHostname s hs.hostname),
      .unsignedShort (s.TargetPort % 65536), .byte 2]
  else
    Marshal env 0 [.varInt hs.protocol, .string hs.hostname, .unsignedShort hs.port, .byte 2]

/-- Lines 146-187: dial the backend and prime it with the handshake and the
login-start packet `p`. -/
def dialAndForward (env : Env) (s : ConfigProxyService) (options : Options)
    (hs : Handshake) (p : Packet) : Run :=
  match options.Out "tcp" (dialAddress s) with
  | some e =>
    { completion := .returned none (some (.external e)),
      trace := [.Dial "tcp" (dialAddress s) (some e), .Close .client] }
  | none =>
    let h := forwardedHandshake env s hs
    match env.BackendWritePacket 0 h with
    | some e =>
      { completion := .returned none (some (.external e)),
        trace := [.Dial "tcp" (dialAddress s) none, .WritePacket .backend 0 h (some e)] }
    | none =>
      match env.BackendWritePacket 1 p with
      | some e =>
        { completion := .returned none (some (.external e)),
          trace := [.Dial "tcp" (dialAddress s) none, .WritePacket .backend 0 h none,
                    .WritePacket .backend 1 p (some e)] }
      | none =>
        { completion := .returned (some .backend) none,
          trace := [.Dial "tcp" (dialAddress s) none, .WritePacket .backend 0 h none,
                    .WritePacket .backend 1 p none] }

/-- Line 101: the capacity condition. `GetCount` is called only when the
limit is enabled (`&&` short-circuits). -/
def capacityExceeded (s : ConfigProxyService) (options : Options) : Bool :=
  s.Minecraft.OnlineCount.EnableMaxLimit && decide (s.Minecraft.OnlineCount.Max ≤ options.GetCount)

/-- The calls made while evaluating the condition on line 101. -/
def capacityTrace (s : ConfigProxyService) (options : Options) : List Event :=
  if s.Minecraft.OnlineCount.EnableMaxLimit then [.GetCount options.GetCount] else []

/-- Lines 112-187: the name-list check and what follows it. -/
def nameGate (env : Env) (s : ConfigProxyService) (options : Options)
    (hs : Handshake) (p : Packet) (playerName : String) : Run :=
  let r := nameCheck env s options playerName
  match r.1 with
  | none => { completion := .panicked, trace := r.2 }
  | some accessibility =>
    if accessibility = "DENY" ∨ accessibility = "REJECT" then
      let kick := Marshal env 0 [env.generateKickMessage s playerName]
      { completion := .returned none (some ErrRejectedLogin),
        trace := r.2 ++ [.WritePacket .client 0 kick (env.ClientWritePacket 0 kick),
                         .SetLinger 10, .Close .client] }
    else
      let f := dialAndForward env s options hs p
      { completion := f.completion, trace := r.2 ++ f.trace }

/-- Lines 90-187, the login branch. `p` is the handshake packet. The error
of the read on line 92 is dropped: the scan on line 96 runs on whatever the
read left in `p`. On a rejection, `c.(*net.TCPConn).SetLinger(10)` is called
on the accepted TCP connection `c` and its result is dropped. -/
def loginBranch (env : Env) (s : ConfigProxyService) (options : Options)
    (hs : Handshake) (p : Packet) : Run :=
  let r1 := env.ReadPacket 1 p
  match env.ScanString r1.1 with
  | .fault => { completion := .panicked, trace := [.ReadPacket 1 r1.1 r1.2] }
  | .error e =>
    { completion := .returned none (some (.external e)), trace := [.ReadPacket 1 r1.1 r1.2] }
  | .ok playerName =>
    if capacityExceeded s options then
      let full := Marshal env 0 [env.generatePlayerNumberLimitExceededMessage s playerName]
      { completion := .returned none (some ErrRejectedLogin),
        trace := .ReadPacket 1 r1.1 r1.2 :: capacityTrace s options ++
                 [.WritePacket .client 0 full (env.ClientWritePacket 0 full),
                  .SetLinger 10, .Close .client] }
    else
      let g := nameGate env s options hs r1.1 playerName
      { completion := g.completion,
        trace := .ReadPacket 1 r1.1 r1.2 :: capacityTrace s options ++ g.trace }

/-- Lines 40-187: the body of `NewConnHandler`. The packet variable `p`
starts as the zero `packet.Packet`. -/
def NewConnHandlerBody (env : Env) (s : ConfigProxyService) (options : Options) : Run :=
  let r0 := env.ReadPacket 0 { ID := 0, Data := [] }
  match r0.2 with
  | some e =>
    { completion := .returned none (some (.external e)), trace := [.ReadPacket 0 r0.1 r0.2] }
  | none =>
    match env.ScanHandshake r0.1 with
    | .fault => { completion := .panicked, trace := [.ReadPacket 0 r0.1 r0.2] }
    | .error e =>
      { completion := .returned none (some (.external e)), trace := [.ReadPacket 0 r0.1 r0.2] }
    | .ok hs =>
      let b := if hs.nextState = 1 then statusBranch env s options hs.protocol r0.1
               else loginBranch env s options hs r0.1
      { completion := b.completion, trace := .ReadPacket 0 r0.1 r0.2 :: b.trace }

/-- Lines 26-32 and 38: `defer badPacketPanicRecover(s)`. A `return` of the
body is passed on unchanged. A panic is recovered and only logged: the
function has unnamed results, no `return` statement ran, so the caller
receives the zero values `(nil, nil)`. -/
def badPacketPanicRecover (run : Run) : Result :=
  match run.completion with
  | .returned conn err => { conn := conn, err := err, trace := run.trace }
  | .panicked => { conn := none, err := none, trace := run.trace ++ [.Recovered] }

/-- The handler `NewConnHandler(s, c, options)`. -/
def NewConnHandler (env : Env) (s : ConfigProxyService) (options : Options) : Result :=
  badPacketPanicRecover (NewConnHandlerBody env s options)

/-! ## Vocabulary of the properties -/

/-- The packet variable `p` after the first `conn.ReadPacket(&p)` (line 42). -/
def handshakePacket (env : Env) : Packet :=
  (env.ReadPacket 0 { ID := 0, Data := [] }).1

/-- The packet variable `p` after the second `conn.ReadPacket(&p)`: the
status request in the status branch, the login start in the login branch. -/
def secondPacket (env : Env) : Packet :=
  (env.ReadPacket 1 (handshakePacket env)).1

/-- The packet variable `p` after the third `conn.ReadPacket(&p)` (line 81):
the ping of the status branch. -/
def pingPacket (env : Env) : Packet :=
  (env.ReadPacket 2 (secondPacket env)).1

/-- The first packet was read and scanned without error as the handshake `hs`. -/
def HandshakeRead (env : Env) (hs : Handshake) : Prop :=
  (env.ReadPacket 0 { ID := 0, Data := [] }).2 = none ∧
  env.ScanHandshake (handshakePacket env) = .ok hs

/-- A login attempt: a handshake whose `nextState` is not 1, followed by a
login-start packet that scans to `playerName`. -/
def LoginAttempt (env : Env) (hs : Handshake) (playerName : String) : Prop :=
  HandshakeRead env hs ∧ hs.nextState ≠ 1 ∧
  env.ScanString (secondPacket env) = .ok playerName

/-- The name is a member of at least one of the configured lists. -/
def Matched (env : Env) (tags : List String) (playerName : String) : Prop :=
  ∃ list ∈ tags, ∃ set, env.GetTargetList list = some set ∧ playerName ∈ set

/-- Every configured list tag resolves to a set. -/
def AllResolve (env : Env) (tags : List String) : Prop :=
  ∀ list ∈ tags, ∃ set, env.GetTargetList list = some set

/-- The name check resolves to a kick: `DENY` (Allow-mode, no match) or
`REJECT` (Block-mode, match) in the table of the spec. -/
def KickDecision (env : Env) (s : ConfigProxyService) (options : Options)
    (playerName : String) : Prop :=
  (options.McNameMode = .AllowMode ∧ ¬ Matched env s.Minecraft.NameAccess.ListTags playerName) ∨
  (options.McNameMode = .BlockMode ∧ Matched env s.Minecraft.NameAccess.ListTags playerName)

/-- The event is an outbound dial. -/
def Event.isDial : Event → Bool
  | .Dial _ _ _ => true
  | _ => false

/-- The event belongs to a local policy check: the read of the connection
counter, the lookup of an access list or a membership query. -/
def Event.isCheck : Event → Bool
  | .GetCount _ => true
  | .GetTargetList _ _ => true
  | .Has _ _ _ => true
  | _ => false

/-- The event is a packet write on the client socket. -/
def Event.isClientWrite : Event → Bool
  | .WritePacket .client _ _ _ => true
  | _ => false

/-- Number of `Close` calls the handler made on a socket. -/
def closes (c : Conn) (trace : List Event) : Nat :=
  trace.count (.Close c)

/-- The handler opened a backend connection. -/
def dialled (trace : List Event) : Bool :=
  trace.any fun e => match e with
    | .Dial _ _ none => true
    | _ => false

/-- The socket discipline as the spec words it: a return without a backend
connection has closed the client socket exactly once and any backend
connection that was opened; a return with a backend connection has closed
neither socket. -/
def SocketDiscipline (r : Result) : Prop :=
  (r.conn = none →
    closes .client r.trace = 1 ∧ (dialled r.trace = true → closes .backend r.trace = 1)) ∧
  (r.conn ≠ none → closes .client r.trace = 0 ∧ closes .backend r.trace = 0)

/-- The calls every login attempt starts with: the two packet reads and the
evaluation of the capacity condition. -/
def loginOpening (env : Env) (s : ConfigProxyService) (options : Options) : List Event :=
  .ReadPacket 0 (handshakePacket env) none ::
  .ReadPacket 1 (secondPacket env) (env.ReadPacket 1 (handshakePacket env)).2 ::
  capacityTrace s options

/-- The dial failed in the login branch (lines 146-151). -/
def LoginDialFailed (env : Env) (s : ConfigProxyService) (r : Result) : Prop :=
  ∃ hs code, HandshakeRead env hs ∧ hs.nextState ≠ 1 ∧
    Event.Dial "tcp" (dialAddress s) (some code) ∈ r.trace

/-! ## Wire framing

The framing of go-mc on a connection wrapped by `mcnet.WrapConn` (no
compression): a frame is the VarInt length of what follows, the VarInt packet
id and the payload. It is the codec's, not the handler's; it is what relates
the packets the handler sees to the bytes on the two sockets. -/

/-- The loop of go-mc's `VarInt.WriteTo` on the uint32 `num`: seven bits per
byte, least significant group first, bit 7 set on every byte but the last. -/
def writeVarInt : Nat → Nat → List Nat
  | 0, _ => []
  | fuel + 1, num =>
    if num / 128 ≠ 0 then (num % 128 + 128) :: writeVarInt fuel (num / 128)
    else [num % 128]

/-- The bytes go-mc's `VarInt.WriteTo` writes: the int32 is converted to
uint32 and written in at most five bytes. -/
def VarInt.WriteTo (v : Int) : List Nat :=
  writeVarInt 5 (v % 4294967296).toNat

/-- The loop of go-mc's `VarInt.ReadFrom`: `num` bytes were read and gave `v`;
each byte adds its low seven bits at position `7 * num` of a uint32, and a
byte with bit 7 clear ends the number. Any padding with empty high groups
is accepted. The result is the uint32, the number of bytes read and the
rest of the stream. -/
def readVarInt : Nat → Nat → Nat → List Nat → Option (Nat × Nat × List Nat)
  | 0, _, _, _ => none
  | _ + 1, _, _, [] => none
  | fuel + 1, num, v, sec :: rest =>
    if 128 ≤ sec then
      readVarInt fuel (num + 1) (v + (sec % 128) * 2 ^ (7 * num) % 4294967296) rest
    else some (v + (sec % 128) * 2 ^ (7 * num) % 4294967296, num + 1, rest)

/-- The int32 a decoded uint32 is converted to (`VarInt(V)`). -/
def toInt32 (v : Nat) : Int :=
  if v < 2147483648 then (v : Int) else (v : Int) - 4294967296

/-- The decoding of go-mc's `VarInt.ReadFrom` from the head of a byte stream:
the int32, the number of bytes read and the rest of the stream. -/
def VarInt.ReadFrom (bytes : List Nat) : Option (Int × Nat × List Nat) :=
  match readVarInt 6 0 0 bytes with
  | none => none
  | some (v, n, rest) => some (toInt32 v, n, rest)

/-- The bytes `WritePacket(p)` writes (go-mc's `Packet.Pack` without
compression): the length of id and payload, the id, the payload. -/
def Packet.Pack (p : Packet) : List Nat :=
  VarInt.WriteTo (((VarInt.WriteTo p.ID).length + p.Data.length : Nat) : Int) ++
    VarInt.WriteTo p.ID ++ p.Data

/-- The packet `ReadPacket` decodes from the head of a byte stream (go-mc's
`Packet.UnPack` without compression) and the rest of the stream; `none` when
the read fails. -/
def Packet.UnPack (bytes : List Nat) : Option (Packet × List Nat) :=
  match VarInt.ReadFrom bytes with
  | none => none
  | some (length, _, rest) =>
    match VarInt.ReadFrom rest with
    | none => none
    | some (id, n, rest') =>
      if length < (n : Int) then none
      else if rest'.length < (length - (n : Int)).toNat then none
      else some ({ ID := id, Data := rest'.take (length - (n : Int)).toNat },
                 rest'.drop (length - (n : Int)).toNat)

/-- The client sent the frame `wire` as its first packet: it is what the
first `ReadPacket` decoded. -/
def ReceivedAs (env : Env) (wire : List Nat) : Prop :=
  Packet.UnPack wire = some (handshakePacket env, [])

/-- The bytes one call hands to the backend socket. -/
def Event.backendBytes : Event → List Nat
  | .WritePacket .backend _ p _ => p.Pack
  | .Write .backend bytes _ => bytes
  | _ => []

/-- The call is a write to the backend that failed. -/
def Event.isFailedBackendWrite : Event → Bool
  | .WritePacket .backend _ _ (some _) => true
  | .Write .backend _ (some _) => true
  | _ => false

/-- The bytes the handler wrote to the backend, in order; `none` when one of
its writes failed, where what reached the backend is not determined. -/
def backendBytes (trace : List Event) : Option (List Nat) :=
  if trace.any Event.isFailedBackendWrite then none
  else some (trace.map Event.backendBytes).flatten

/-- The status passthrough as the spec words it: the bytes written to the
backend are the handshake bytes as received from the client followed by the
status request `[1, 0]`, and the backend connection is returned with a nil
error. -/
def ReplaysReceivedBytes (r : Result) (wire : List Nat) : Prop :=
  backendBytes r.trace = some (wire ++ [1, 0]) ∧ r.conn = some .backend ∧ r.err = none

/-! ## Recorded scenarios -/

/-- A field encoding for the scenarios: the protocol's encoding of short
ASCII fields. -/
def exampleEncode : Field → List Nat
  | .varInt v => [v.toNat]
  | .string v => v.length :: v.data.map Char.toNat
  | .unsignedShort v => [v / 256, v % 256]
  | .byte v => [v.toNat]
  | .chat json => json.length :: json.data.map Char.toNat

/-- The handshake of the scenarios: protocol 47, hostname
`example.com\0FML\0`, port 25565. -/
def exampleHandshake (nextState : Int) : Handshake :=
  { protocol := 47, hostname := "example.com\x00FML\x00", port := 25565, nextState := nextState }

/-- The handshake packet of the scenarios as the client frames it. -/
def exampleHandshakePacket (nextState : Int) : Packet :=
  { ID := 0,
    Data := [47, 16, 101, 120, 97, 109, 112, 108, 101, 46, 99, 111, 109, 0, 70, 77, 76, 0,
             99, 221, nextState.toNat] }

/-- The login-start packet of player `bob`. -/
def exampleLoginStart : Packet :=
  { ID := 0, Data := [3, 98, 111, 98] }

/-- The status-request packet: id 0, empty body. -/
def exampleStatusRequest : Packet :=
  { ID := 0, Data := [] }

/-- A ping packet: id 1 and an 8-byte payload. -/
def examplePing : Packet :=
  { ID := 1, Data := [0, 0, 0, 0, 0, 0, 0, 42] }

/-- A well-behaved client and backend: the client sends the handshake with the
given `nextState`, then the status request and a ping (status) or the login
start of `bob` (login); every write succeeds; list `A` holds `alice`, list
`B` holds `bob`, no other tag resolves. -/
def exampleClient (nextState : Int) : Env :=
  { ReadPacket := fun k _ =>
      match k with
      | 0 => (exampleHandshakePacket nextState, none)
      | 1 => (if nextState = 1 then exampleStatusRequest else exampleLoginStart, none)
      | _ => (examplePing, none)
    ScanHandshake := fun p =>
      if p = exampleHandshakePacket nextState then .ok (exampleHandshake nextState) else .error 1
    ScanString := fun p => if p = exampleLoginStart then .ok "bob" else .error 1
    encode := exampleEncode
    ClientWritePacket := fun _ _ => none
    BackendWritePacket := fun _ _ => none
    BackendWrite := fun _ => none
    GetTargetList := fun list =>
      if list = "A" then some ["alice"] else if list = "B" then some ["bob"] else none
    generateMotdPacket := fun _ s _ =>
      { ID := 0, Data := exampleEncode (.chat s.Minecraft.MotdDescription) }
    generatePlayerNumberLimitExceededMessage := fun _ name => .chat ("full: " ++ name)
    generateKickMessage := fun _ name => .chat ("kick: " ++ name) }

/-- A client whose first packet is not a Minecraft handshake: the string
length that follows the protocol number is the VarInt -1, and the scan
panics. -/
def foreignClient : Env :=
  { exampleClient 2 with
    ReadPacket := fun _ _ => ({ ID := 0, Data := [47, 255, 255, 255, 255, 15] }, none)
    ScanHandshake := fun _ => .fault }

/-- A client whose connection fails before a first packet arrives. -/
def silentClient : Env :=
  { exampleClient 2 with
    ReadPacket := fun _ p => (p, some 104) }

/-- A status query against a backend that resets the connection right after
the dial: the write of the handshake fails. -/
def brokenBackend : Env :=
  { exampleClient 1 with
    BackendWritePacket := fun _ _ => some 32
    BackendWrite := fun _ => some 32 }

/-- A service that rewrites hostnames to `proxy.local`, limits the player
count to 20, consults the lists `A` then `B`, and has no MOTD override. -/
def exampleService : ConfigProxyService :=
  { Name := "lobby", TargetAddress := "10.0.0.2", TargetPort := 25565,
    Minecraft :=
      { EnableHostnameRewrite := true, RewrittenHostname := "proxy.local",
        IgnoreFMLSuffix := false,
        OnlineCount := { EnableMaxLimit := true, Max := 20 },
        NameAccess := { ListTags := ["A", "B"] },
        MotdDescription := "", MotdFavicon := "" } }

/-- The same service with the legacy suffix ignored. -/
def ignoreSuffixService : ConfigProxyService :=
  { exampleService with
    Minecraft := { exampleService.Minecraft with IgnoreFMLSuffix := true } }

/-- The same service without hostname rewriting. -/
def plainService : ConfigProxyService :=
  { exampleService with
    Minecraft := { exampleService.Minecraft with EnableHostnameRewrite := false } }

/-- The same service with an MOTD override. -/
def motdService : ConfigProxyService :=
  { exampleService with
    Minecraft := { exampleService.Minecraft with MotdDescription := "A Minecraft Server" } }

/-- Options with the given mode and connection count, and a dialer that
connects (`dial = none`) or fails with the given error. -/
def exampleOptions (mode : Mode) (count : Int) (dial : Option Nat) : Options :=
  { Out := fun _ _ => dial, McNameMode := mode, GetCount := count }

/-- The example service consulting list `A` only. -/
def listAService : ConfigProxyService :=
  { exampleService with
    Minecraft := { exampleService.Minecraft with NameAccess := { ListTags := ["A"] } } }

/-- The handshake of the scenarios (nextState 1) framed with its length 22
written in two bytes, `96 00`, where the shortest form is `16`. -/
def paddedHandshakeFrame : List Nat :=
  [150, 0, 0, 47, 16, 101, 120, 97, 109, 112, 108, 101, 46, 99, 111, 109, 0, 70, 77, 76, 0,
   99, 221, 1]

/-! ## Auxiliary facts -/

/-- After a handshake that read and scanned, the body is the branch chosen by
`nextState`, preceded by the first read. -/
theorem body_of_handshake (env : Env) (s : ConfigProxyService) (options : Options)
    (hs : Handshake) (h : HandshakeRead env hs) :
    NewConnHandlerBody env s options =
      { completion :=
          (if hs.nextState = 1 then statusBranch env s options hs.protocol (handshakePacket env)
           else loginBranch env s options hs (handshakePacket env)).completion,
        trace := .ReadPacket 0 (handshakePacket env) none ::
          (if hs.nextState = 1 then statusBranch env s options hs.protocol (handshakePacket env)
           else loginBranch env s options hs (handshakePacket env)).trace } := by
  obtain ⟨h1, h2⟩ := h
  unfold handshakePacket at h2
  simp only [NewConnHandlerBody, handshakePacket, h1, h2]

/-- The list loop only looks lists up and queries them. -/
theorem scanLists_events (env : Env) (name : String) (tags : List String) :
    ∀ e ∈ (scanLists env name tags).2,
      (∃ l b, e = .GetTargetList l b) ∨ (∃ l b, e = .Has l name b) := by
  induction tags with
  | nil => simp [scanLists]
  | cons t rest ih =>
    intro e he
    unfold scanLists at he
    split at he
    · simp at he; exact Or.inl ⟨_, _, he⟩
    · split at he
      · simp at he
        rcases he with he | he
        · exact Or.inl ⟨_, _, he⟩
        · exact Or.inr ⟨_, _, he⟩
      · simp at he
        rcases he with he | he | he
        · exact Or.inl ⟨_, _, he⟩
        · exact Or.inr ⟨_, _, he⟩
        · exact ih e he

/-- The loop ends with `hit` set only when some list holds the name. -/
theorem scanLists_true (env : Env) (name : String) (tags : List String)
    (h : (scanLists env name tags).1 = some true) : Matched env tags name := by
  induction tags with
  | nil => simp [scanLists] at h
  | cons t rest ih =>
    unfold scanLists at h
    split at h
    · simp at h
    · rename_i set hset
      split at h
      · rename_i hhas
        refine ⟨t, by simp, set, hset, ?_⟩
        simpa [StringSet.Has] using hhas
      · obtain ⟨l, hl, st, h1, h2⟩ := ih h
        exact ⟨l, by simp [hl], st, h1, h2⟩

/-- The loop ends with `hit` unset only when no list holds the name. -/
theorem scanLists_false (env : Env) (name : String) (tags : List String)
    (h : (scanLists env name tags).1 = some false) : ¬ Matched env tags name := by
  induction tags with
  | nil => rintro ⟨l, hl, _⟩; simp at hl
  | cons t rest ih =>
    unfold scanLists at h
    split at h
    · simp at h
    · rename_i set hset
      split at h
      · simp at h
      · rename_i hhas
        rintro ⟨l, hl, st, h1, h2⟩
        simp at hl
        rcases hl with rfl | hl
        · rw [hset] at h1
          cases h1
          exact hhas (by simpa [StringSet.Has] using h2)
        · exact ih h ⟨l, hl, st, h1, h2⟩

/-- The loop panics only on a tag that does not resolve. -/
theorem scanLists_none (env : Env) (name : String) (tags : List String)
    (h : (scanLists env name tags).1 = none) : ¬ AllResolve env tags := by
  induction tags with
  | nil => simp [scanLists] at h
  | cons t rest ih =>
    unfold scanLists at h
    split at h
    · rename_i hnone
      intro hall
      obtain ⟨st, hst⟩ := hall t (by simp)
      rw [hnone] at hst
      cases hst
    · split at h
      · simp at h
      · intro hall
        exact ih h (fun l hl => hall l (by simp [hl]))

theorem nameCheck_events (env : Env) (s : ConfigProxyService) (options : Options)
    (name : String) :
    ∀ e ∈ (nameCheck env s options name).2,
      (∃ l b, e = .GetTargetList l b) ∨ (∃ l b, e = .Has l name b) := by
  intro e he
  have key := scanLists_events env name s.Minecraft.NameAccess.ListTags e
  unfold nameCheck at he
  by_cases hmode : options.McNameMode = .DefaultMode
  · simp [hmode] at he
  · cases hsl : (scanLists env name s.Minecraft.NameAccess.ListTags).1 <;>
      simp [hmode, hsl] at he <;> exact key he

/-- The name check yields `DENY` or `REJECT` exactly on a kick decision. -/
theorem nameCheck_kick (env : Env) (s : ConfigProxyService) (options : Options)
    (name acc : String) (h : (nameCheck env s options name).1 = some acc) :
    (acc = "DENY" ∨ acc = "REJECT") ↔ KickDecision env s options name := by
  unfold nameCheck at h
  unfold KickDecision
  by_cases hmode : options.McNameMode = .DefaultMode
  · simp [hmode] at h
    subst h
    simp [hmode]
  · cases hsl : (scanLists env name s.Minecraft.NameAccess.ListTags).1 with
    | none => simp [hmode, hsl] at h
    | some hit =>
      simp [hmode, hsl] at h
      subst h
      cases hit
      · have hm := scanLists_false env name _ hsl
        cases hmd : options.McNameMode <;> simp_all [accessibilityOf]
      · have hm := scanLists_true env name _ hsl
        cases hmd : options.McNameMode <;> simp_all [accessibilityOf]

/-- With every tag resolving, the name check does not panic. -/
theorem nameCheck_resolved (env : Env) (s : ConfigProxyService) (options : Options)
    (name : String) (hres : AllResolve env s.Minecraft.NameAccess.ListTags) :
    ∃ acc, (nameCheck env s options name).1 = some acc := by
  unfold nameCheck
  by_cases hmode : options.McNameMode = .DefaultMode
  · simp [hmode]
  · cases hsl : (scanLists env name s.Minecraft.NameAccess.ListTags).1 with
    | none => exact absurd hres (scanLists_none env name _ hsl)
    | some hit => simp [hmode, hsl]

theorem body_of_login (env : Env) (s : ConfigProxyService) (options : Options)
    (hs : Handshake) (name : String) (h : LoginAttempt env hs name) :
    NewConnHandlerBody env s options =
      if capacityExceeded s options then
        { completion := .returned none (some ErrRejectedLogin),
          trace := .ReadPacket 0 (handshakePacket env) none ::
            .ReadPacket 1 (secondPacket env) (env.ReadPacket 1 (handshakePacket env)).2 ::
            (capacityTrace s options ++
              [.WritePacket .client 0
                  (Marshal env 0 [env.generatePlayerNumberLimitExceededMessage s name])
                  (env.ClientWritePacket 0
                    (Marshal env 0 [env.generatePlayerNumberLimitExceededMessage s name])),
               .SetLinger 10, .Close .client]) }
      else
        { completion := (nameGate env s options hs (secondPacket env) name).completion,
          trace := .ReadPacket 0 (handshakePacket env) none ::
            .ReadPacket 1 (secondPacket env) (env.ReadPacket 1 (handshakePacket env)).2 ::
            (capacityTrace s options ++
              (nameGate env s options hs (secondPacket env) name).trace) } := by
  obtain ⟨h1, h2, h3⟩ := h
  rw [body_of_handshake env s options hs h1]
  unfold secondPacket at h3
  simp only [h2, if_false, loginBranch, secondPacket, h3]
  split <;> simp

theorem nameGate_of (env : Env) (s : ConfigProxyService) (options : Options)
    (hs : Handshake) (p : Packet) (name acc : String)
    (h : (nameCheck env s options name).1 = some acc) :
    nameGate env s options hs p name =
      if acc = "DENY" ∨ acc = "REJECT" then
        { completion := .returned none (some ErrRejectedLogin),
          trace := (nameCheck env s options name).2 ++
            [.WritePacket .client 0 (Marshal env 0 [env.generateKickMessage s name])
                (env.ClientWritePacket 0 (Marshal env 0 [env.generateKickMessage s name])),
             .SetLinger 10, .Close .client] }
      else
        { completion := (dialAndForward env s options hs p).completion,
          trace := (nameCheck env s options name).2 ++ (dialAndForward env s options hs p).trace } := by
  simp only [nameGate, h]

theorem capacityTrace_events (s : ConfigProxyService) (options : Options) :
    ∀ e ∈ capacityTrace s options, e = .GetCount options.GetCount := by
  intro e he
  unfold capacityTrace at he
  split at he <;> simp at he
  exact he

/-- The tail of the forwarding stage after its dial. -/
theorem dialAndForward_shape (env : Env) (s : ConfigProxyService) (options : Options)
    (hs : Handshake) (p : Packet) :
    ∃ c e T, dialAndForward env s options hs p =
        { completion := .returned c e,
          trace := .Dial "tcp" (dialAddress s) (options.Out "tcp" (dialAddress s)) :: T } ∧
      e ≠ some GoError.sentinel ∧
      (∀ x ∈ T, x = .Close .client ∨ ∃ k q r, x = .WritePacket .backend k q r) ∧
      (c ≠ none → ∀ x ∈ T, x ≠ .Close .client) ∧
      (∀ code, options.Out "tcp" (dialAddress s) = some code → T = [.Close .client]) ∧
      (options.Out "tcp" (dialAddress s) = none →
        (∃ r, .WritePacket .backend 0 (forwardedHandshake env s hs) r ∈ T) ∧
        (∀ q r, .WritePacket .backend 0 q r ∈ T → q = forwardedHandshake env s hs) ∧
        ∀ x ∈ T, x ≠ .Close .client) := by
  unfold dialAndForward
  split
  · rename_i e he
    refine ⟨none, some (.external e), [.Close .client], ?_⟩
    simp [he]
  · rename_i he
    simp only [he]
    split
    · rename_i e1 he1
      refine ⟨none, some (.external e1), _, rfl, ?_⟩
      simp
    · split
      · rename_i e2 he2
        refine ⟨none, some (.external e2), _, rfl, ?_⟩
        simp
      · refine ⟨some .backend, none, _, rfl, ?_⟩
        simp

/-- A trace with a single dial splits around it in one way only. -/
theorem split_at_dial (A T pre post : List Event) (d d' : Event)
    (hA : ∀ x ∈ A, x.isDial = false) (hT : ∀ x ∈ T, x.isDial = false)
    (hd' : d'.isDial = true) (h : A ++ d :: T = pre ++ d' :: post) :
    pre = A ∧ post = T := by
  rw [List.append_eq_append_iff] at h
  rcases h with ⟨a', rfl, h2⟩ | ⟨c', rfl, h2⟩
  · cases a' with
    | nil => simp at h2; simp [h2.2]
    | cons x xs =>
      simp at h2
      obtain ⟨rfl, rfl⟩ := h2
      have := hT d' (by simp)
      simp [hd'] at this
  · cases c' with
    | nil => simp at h2; simp [h2.2]
    | cons x xs =>
      simp at h2
      obtain ⟨rfl, _⟩ := h2
      have := hA d' (by simp)
      simp [hd'] at this

theorem nameCheck_not_dial (env : Env) (s : ConfigProxyService) (options : Options)
    (name : String) : ∀ e ∈ (nameCheck env s options name).2, e.isDial = false := by
  intro e he
  rcases nameCheck_events env s options name e he with ⟨l, b, rfl⟩ | ⟨l, b, rfl⟩ <;> rfl

theorem nameGate_of_none (env : Env) (s : ConfigProxyService) (options : Options)
    (hs : Handshake) (p : Packet) (name : String) (h : (nameCheck env s options name).1 = none) :
    nameGate env s options hs p name =
      { completion := .panicked, trace := (nameCheck env s options name).2 } := by
  simp only [nameGate, h]

/-- A failed first read ends the handler with that error and no other call. -/
theorem body_of_unreadable (env : Env) (s : ConfigProxyService) (options : Options)
    (code : Nat) (h : (env.ReadPacket 0 { ID := 0, Data := [] }).2 = some code) :
    NewConnHandler env s options =
      { conn := none, err := some (.external code),
        trace := [.ReadPacket 0 (handshakePacket env) (some code)] } := by
  simp [NewConnHandler, NewConnHandlerBody, h, badPacketPanicRecover, handshakePacket]

/-- A handshake that does not scan ends the handler after the first read,
with a nil connection and an error that is not the sentinel. -/
theorem body_of_unscannable (env : Env) (s : ConfigProxyService) (options : Options)
    (hread : (env.ReadPacket 0 { ID := 0, Data := [] }).2 = none)
    (h : ∀ hs, env.ScanHandshake (handshakePacket env) ≠ .ok hs) :
    (NewConnHandler env s options).conn = none ∧
    (NewConnHandler env s options).err ≠ some GoError.sentinel ∧
    ((NewConnHandler env s options).trace = [.ReadPacket 0 (handshakePacket env) none] ∨
     (NewConnHandler env s options).trace =
        [.ReadPacket 0 (handshakePacket env) none, .Recovered]) := by
  unfold handshakePacket at h
  cases hsc : env.ScanHandshake (env.ReadPacket 0 { ID := 0, Data := [] }).1 with
  | ok hs => exact absurd hsc (h hs)
  | error code =>
    simp [NewConnHandler, NewConnHandlerBody, hread, hsc, badPacketPanicRecover, handshakePacket]
  | fault =>
    simp [NewConnHandler, NewConnHandlerBody, hread, hsc, badPacketPanicRecover, handshakePacket]

/-- A login-start packet that does not scan ends the handler after the second
read, with a nil connection and an error that is not the sentinel. -/
theorem body_of_unnamed (env : Env) (s : ConfigProxyService) (options : Options)
    (hs : Handshake) (hh : HandshakeRead env hs) (hst : hs.nextState ≠ 1)
    (h : ∀ name, env.ScanString (secondPacket env) ≠ .ok name) :
    (NewConnHandler env s options).conn = none ∧
    (NewConnHandler env s options).err ≠ some GoError.sentinel ∧
    ((NewConnHandler env s options).trace =
        [.ReadPacket 0 (handshakePacket env) none,
         .ReadPacket 1 (secondPacket env) (env.ReadPacket 1 (handshakePacket env)).2] ∨
     (NewConnHandler env s options).trace =
        [.ReadPacket 0 (handshakePacket env) none,
         .ReadPacket 1 (secondPacket env) (env.ReadPacket 1 (handshakePacket env)).2,
         .Recovered]) := by
  unfold secondPacket at h
  unfold NewConnHandler
  rw [body_of_handshake env s options hs hh]
  cases hsc : env.ScanString (env.ReadPacket 1 (handshakePacket env)).1 with
  | ok name => exact absurd hsc (h name)
  | error code => simp [hst, loginBranch, hsc, badPacketPanicRecover, secondPacket]
  | fault => simp [hst, loginBranch, hsc, badPacketPanicRecover, secondPacket]

/-- The three runs of the status branch. -/
theorem body_of_status (env : Env) (s : ConfigProxyService) (options : Options)
    (hs : Handshake) (hh : HandshakeRead env hs) (hst : hs.nextState = 1) :
    NewConnHandler env s options =
      if s.Minecraft.MotdDescription = "" ∧ s.Minecraft.MotdFavicon = "" then
        match options.Out "tcp" (dialAddress s) with
        | some e =>
          { conn := none, err := some (.external e),
            trace := [.ReadPacket 0 (handshakePacket env) none,
                      .Dial "tcp" (dialAddress s) (some e)] }
        | none =>
          { conn := some .backend, err := none,
            trace := [.ReadPacket 0 (handshakePacket env) none,
                      .Dial "tcp" (dialAddress s) none,
                      .WritePacket .backend 0 (handshakePacket env)
                        (env.BackendWritePacket 0 (handshakePacket env)),
                      .Write .backend [1, 0] (env.BackendWrite [1, 0])] }
      else
        { conn := none, err := some ErrSuccessfullyHandledMOTDRequest,
          trace := [.ReadPacket 0 (handshakePacket env) none,
                    .ReadPacket 1 (secondPacket env) (env.ReadPacket 1 (handshakePacket env)).2,
                    .WritePacket .client 0 (env.generateMotdPacket hs.protocol s options)
                      (env.ClientWritePacket 0 (env.generateMotdPacket hs.protocol s options)),
                    .ReadPacket 2 (pingPacket env) (env.ReadPacket 2 (secondPacket env)).2,
                    .WritePacket .client 1 (pingPacket env)
                      (env.ClientWritePacket 1 (pingPacket env)),
                    .Close .client] } := by
  unfold NewConnHandler
  rw [body_of_handshake env s options hs hh]
  simp only [hst, if_true, statusBranch]
  split
  · split <;> simp_all [badPacketPanicRecover]
  · simp [badPacketPanicRecover, secondPacket, pingPacket]

theorem loginOpening_events (env : Env) (s : ConfigProxyService) (options : Options) :
    ∀ e ∈ loginOpening env s options,
      (∃ k p r, e = .ReadPacket k p r) ∨ e = .GetCount options.GetCount := by
  intro e he
  simp only [loginOpening, List.mem_cons] at he
  rcases he with rfl | rfl | he
  · exact Or.inl ⟨_, _, _, rfl⟩
  · exact Or.inl ⟨_, _, _, rfl⟩
  · exact Or.inr (capacityTrace_events s options e he)

/-- The four ways a login attempt can run: capacity rejection, a panic in the
list lookup, a kick by the name check, or the forwarding stage. -/
theorem login_paths (env : Env) (s : ConfigProxyService) (options : Options)
    (hs : Handshake) (name : String) (h : LoginAttempt env hs name) :
    (capacityExceeded s options = true ∧
      NewConnHandler env s options =
        { conn := none, err := some ErrRejectedLogin,
          trace := loginOpening env s options ++
            [.WritePacket .client 0
                (Marshal env 0 [env.generatePlayerNumberLimitExceededMessage s name])
                (env.ClientWritePacket 0
                  (Marshal env 0 [env.generatePlayerNumberLimitExceededMessage s name])),
             .SetLinger 10, .Close .client] }) ∨
    (capacityExceeded s options = false ∧ (nameCheck env s options name).1 = none ∧
      NewConnHandler env s options =
        { conn := none, err := none,
          trace := loginOpening env s options ++ (nameCheck env s options name).2 ++
            [.Recovered] }) ∨
    (capacityExceeded s options = false ∧ KickDecision env s options name ∧
      NewConnHandler env s options =
        { conn := none, err := some ErrRejectedLogin,
          trace := loginOpening env s options ++ (nameCheck env s options name).2 ++
            [.WritePacket .client 0 (Marshal env 0 [env.generateKickMessage s name])
                (env.ClientWritePacket 0 (Marshal env 0 [env.generateKickMessage s name])),
             .SetLinger 10, .Close .client] }) ∨
    (capacityExceeded s options = false ∧ ¬ KickDecision env s options name ∧
      ∃ c e T,
        NewConnHandler env s options =
          { conn := c, err := e,
            trace := (loginOpening env s options ++ (nameCheck env s options name).2) ++
              .Dial "tcp" (dialAddress s) (options.Out "tcp" (dialAddress s)) :: T } ∧
        e ≠ some GoError.sentinel ∧
        (∀ x ∈ T, x = .Close .client ∨ ∃ k q r, x = .WritePacket .backend k q r) ∧
        (c ≠ none → ∀ x ∈ T, x ≠ .Close .client) ∧
        (∀ code, options.Out "tcp" (dialAddress s) = some code → T = [.Close .client]) ∧
        (options.Out "tcp" (dialAddress s) = none →
          (∃ r, .WritePacket .backend 0 (forwardedHandshake env s hs) r ∈ T) ∧
          (∀ q r, .WritePacket .backend 0 q r ∈ T → q = forwardedHandshake env s hs) ∧
          ∀ x ∈ T, x ≠ .Close .client)) := by
  unfold NewConnHandler
  rw [body_of_login env s options hs name h]
  cases hcap : capacityExceeded s options with
  | true =>
    left
    simp [badPacketPanicRecover, loginOpening]
  | false =>
    right
    cases hnc : (nameCheck env s options name).1 with
    | none =>
      left
      rw [nameGate_of_none env s options hs _ name hnc]
      simp [badPacketPanicRecover, loginOpening]
    | some acc =>
      right
      rw [nameGate_of env s options hs _ name acc hnc]
      have hkick := nameCheck_kick env s options name acc hnc
      by_cases hk : acc = "DENY" ∨ acc = "REJECT"
      · left
        refine ⟨rfl, hkick.mp hk, ?_⟩
        simp [hk, badPacketPanicRecover, loginOpening]
      · right
        obtain ⟨c, e, T, hshape, hrest⟩ :=
          dialAndForward_shape env s options hs (secondPacket env)
        refine ⟨rfl, fun hK => hk (hkick.mpr hK), c, e, T, ?_, hrest⟩
        simp [hk, hshape, badPacketPanicRecover, loginOpening]

theorem loginOpening_not_dial (env : Env) (s : ConfigProxyService) (options : Options) :
    ∀ e ∈ loginOpening env s options, e.isDial = false := by
  intro e he
  rcases loginOpening_events env s options e he with ⟨k, p, r, rfl⟩ | rfl <;> rfl

theorem login_checks_events (env : Env) (s : ConfigProxyService) (options : Options)
    (name : String) :
    ∀ x ∈ loginOpening env s options ++ (nameCheck env s options name).2,
      x.isDial = false ∧ (∀ c k q r, x ≠ .WritePacket c k q r) ∧ (∀ c, x ≠ .Close c) := by
  intro x hx
  rcases List.mem_append.mp hx with hx | hx
  · rcases loginOpening_events env s options x hx with ⟨k, p, r, rfl⟩ | rfl <;>
      simp [Event.isDial]
  · rcases nameCheck_events env s options name x hx with ⟨l, b, rfl⟩ | ⟨l, b, rfl⟩ <;>
      simp [Event.isDial]

/-- The suffix test holds exactly when the string ends with the suffix. -/
theorem HasSuffix_iff (s t : String) : HasSuffix s t = true ↔ ∃ pre : String, s = pre ++ t := by
  unfold HasSuffix
  rw [List.isSuffixOf_iff_suffix]
  constructor
  · rintro ⟨l, hl⟩
    exact ⟨⟨l⟩, String.ext (by simpa using hl.symm)⟩
  · rintro ⟨pre, rfl⟩
    exact ⟨pre.data, by simp⟩

/-- The handshake written to the backend in the login branch is the packet
built on lines 155-177, and a successful dial is followed by its write. -/
theorem login_handshake_write (env : Env) (s : ConfigProxyService) (options : Options)
    (hs : Handshake) (hh : HandshakeRead env hs) (hst : hs.nextState ≠ 1) :
    (Event.Dial "tcp" (dialAddress s) none ∈ (NewConnHandler env s options).trace →
      ∃ r, Event.WritePacket .backend 0 (forwardedHandshake env s hs) r
        ∈ (NewConnHandler env s options).trace) ∧
    (∀ q r, Event.WritePacket .backend 0 q r ∈ (NewConnHandler env s options).trace →
      q = forwardedHandshake env s hs) := by
  by_cases hn : ∃ name, env.ScanString (secondPacket env) = .ok name
  · obtain ⟨name, hn⟩ := hn
    have hA := login_checks_events env s options name
    have hP : ∀ x ∈ loginOpening env s options,
        x.isDial = false ∧ (∀ c k q r, x ≠ .WritePacket c k q r) ∧ (∀ c, x ≠ .Close c) :=
      fun x hx => hA x (List.mem_append.mpr (Or.inl hx))
    rcases login_paths env s options hs name ⟨hh, hst, hn⟩ with
      ⟨-, hrun⟩ | ⟨-, -, hrun⟩ | ⟨-, -, hrun⟩ | ⟨-, -, c, e, T, hrun, -, hT, -, hfail, hok⟩
    · rw [hrun]
      constructor
      · intro hm
        simp only [List.mem_append, List.mem_cons, List.mem_singleton,
          List.not_mem_nil, or_false] at hm
        rcases hm with hx | hx | hx | hx
        · have := (hP _ hx).1
          simp [Event.isDial] at this
        all_goals cases hx
      · intro q r hm
        simp only [List.mem_append, List.mem_cons, List.mem_singleton,
          List.not_mem_nil, or_false] at hm
        rcases hm with hx | hx | hx | hx
        · exact absurd rfl ((hP _ hx).2.1 _ _ _ _)
        all_goals cases hx
    · rw [hrun]
      constructor
      · intro hm
        simp only [List.mem_append, List.mem_cons, List.mem_singleton,
          List.not_mem_nil, or_false] at hm
        rcases hm with hx | hx
        · have := (hA _ (List.mem_append.mpr hx)).1
          simp [Event.isDial] at this
        · cases hx
      · intro q r hm
        simp only [List.mem_append, List.mem_cons, List.mem_singleton,
          List.not_mem_nil, or_false] at hm
        rcases hm with hx | hx
        · exact absurd rfl ((hA _ (List.mem_append.mpr hx)).2.1 _ _ _ _)
        · cases hx
    · rw [hrun]
      constructor
      · intro hm
        simp only [List.mem_append, List.mem_cons, List.mem_singleton,
          List.not_mem_nil, or_false] at hm
        rcases hm with hx | hx | hx | hx
        · have := (hA _ (List.mem_append.mpr hx)).1
          simp [Event.isDial] at this
        all_goals cases hx
      · intro q r hm
        simp only [List.mem_append, List.mem_cons, List.mem_singleton,
          List.not_mem_nil, or_false] at hm
        rcases hm with hx | hx | hx | hx
        · exact absurd rfl ((hA _ (List.mem_append.mpr hx)).2.1 _ _ _ _)
        all_goals cases hx
    · rw [hrun]
      constructor
      · intro hm
        rcases List.mem_append.mp hm with hx | hx
        · have := (hA _ hx).1
          simp [Event.isDial] at this
        · rcases List.mem_cons.mp hx with hx | hx
          · simp only [Event.Dial.injEq, true_and] at hx
            obtain ⟨r, hr⟩ := (hok hx.symm).1
            exact ⟨r, by simp [hr]⟩
          · rcases hT _ hx with h1 | ⟨k, q, r, h1⟩ <;> cases h1
      · intro q r hm
        rcases List.mem_append.mp hm with hx | hx
        · exact absurd rfl ((hA _ hx).2.1 _ _ _ _)
        · rcases List.mem_cons.mp hx with hx | hx
          · cases hx
          · cases hd : options.Out "tcp" (dialAddress s) with
            | none => exact (hok hd).2.1 q r hx
            | some code =>
              rw [hfail code hd] at hx
              simp at hx
  · have hu := body_of_unnamed env s options hs hh hst (fun name hname => hn ⟨name, hname⟩)
    constructor
    · intro hm
      rcases hu.2.2 with h1 | h1 <;> rw [h1] at hm <;> simp at hm
    · intro q r hm
      rcases hu.2.2 with h1 | h1 <;> rw [h1] at hm <;> simp at hm

theorem HandshakeRead_unique (env : Env) (hs hs' : Handshake)
    (h : HandshakeRead env hs) (h' : HandshakeRead env hs') : hs' = hs := by
  have := h.2.symm.trans h'.2
  cases this
  rfl

theorem count_close_checks (env : Env) (s : ConfigProxyService) (options : Options)
    (name : String) (c : Conn) :
    List.count (Event.Close c) (loginOpening env s options) = 0 ∧
    List.count (Event.Close c) (nameCheck env s options name).2 = 0 := by
  have hA := login_checks_events env s options name
  constructor
  · exact List.count_eq_zero.mpr
      (fun h => (hA _ (List.mem_append.mpr (Or.inl h))).2.2 c rfl)
  · exact List.count_eq_zero.mpr
      (fun h => (hA _ (List.mem_append.mpr (Or.inr h))).2.2 c rfl)

theorem discipline_of_closed (env : Env) (s : ConfigProxyService) (r : Result)
    (hconn : r.conn = none)
    (hwhy : r.err = some ErrSuccessfullyHandledMOTDRequest ∨ LoginDialFailed env s r)
    (hcl : closes .client r.trace = 1) :
    closes .client r.trace ≤ 1 ∧
    (closes .client r.trace = 1 ↔
      (r.err = some ErrSuccessfullyHandledMOTDRequest ∨ LoginDialFailed env s r)) ∧
    (r.conn ≠ none → closes .client r.trace = 0 ∧ closes .backend r.trace = 0) :=
  ⟨le_of_eq hcl, ⟨fun _ => hwhy, fun _ => hcl⟩, fun h => absurd hconn h⟩

theorem discipline_of_open (env : Env) (s : ConfigProxyService) (r : Result)
    (hcl : closes .client r.trace = 0) (hbk : closes .backend r.trace = 0)
    (herr : r.err ≠ some ErrSuccessfullyHandledMOTDRequest)
    (hno : ¬ LoginDialFailed env s r) :
    closes .client r.trace ≤ 1 ∧
    (closes .client r.trace = 1 ↔
      (r.err = some ErrSuccessfullyHandledMOTDRequest ∨ LoginDialFailed env s r)) ∧
    (r.conn ≠ none → closes .client r.trace = 0 ∧ closes .backend r.trace = 0) := by
  refine ⟨by omega, ⟨fun h => by omega, ?_⟩, fun _ => ⟨hcl, hbk⟩⟩
  rintro (h | h)
  · exact absurd h herr
  · exact absurd h hno

/-- Reading back what `writeVarInt` wrote gives the number, for a number that
fits the remaining groups of a uint32. -/
theorem readVarInt_writeVarInt (rest : List Nat) :
    ∀ (f g n k v : Nat), 0 < f → f ≤ g → n < 128 ^ f → n * 2 ^ (7 * k) < 4294967296 →
      readVarInt g k v (writeVarInt f n ++ rest) =
        some (v + n * 2 ^ (7 * k), k + (writeVarInt f n).length, rest) := by
  intro f
  induction f with
  | zero => intro g n k v hf; omega
  | succ f ih =>
    intro g n k v _ hfg hn hk
    obtain ⟨g, rfl⟩ : ∃ g', g = g' + 1 := ⟨g - 1, by omega⟩
    have hsplit : n = n % 128 + 128 * (n / 128) := (Nat.mod_add_div n 128).symm
    have hmodlt : n % 128 < 128 := Nat.mod_lt _ (by norm_num)
    have hlow : n % 128 * 2 ^ (7 * k) < 4294967296 :=
      lt_of_le_of_lt (Nat.mul_le_mul_right _ (Nat.mod_le n 128)) hk
    by_cases hz : n / 128 = 0
    · have hnn : n % 128 = n := Nat.mod_eq_of_lt (by omega)
      simp only [writeVarInt, hz, ne_eq, not_true_eq_false, if_false, List.singleton_append,
        readVarInt, List.length_singleton]
      have h128 : ¬ 128 ≤ n := by omega
      simp only [h128, if_false, hnn, Nat.mod_eq_of_lt hk]
    · have hf0 : 0 < f := by
        rcases Nat.eq_zero_or_pos f with h0 | h0
        · subst h0
          simp at hn
          omega
        · exact h0
      have hdiv : n / 128 < 128 ^ f := by
        rw [Nat.div_lt_iff_lt_mul (by norm_num)]
        calc n < 128 ^ (f + 1) := hn
          _ = 128 ^ f * 128 := by ring
      have hpow : 2 ^ (7 * (k + 1)) = 128 * 2 ^ (7 * k) := by
        rw [show 7 * (k + 1) = 7 + 7 * k by ring, pow_add]
        norm_num
      have hk' : n / 128 * 2 ^ (7 * (k + 1)) < 4294967296 := by
        rw [hpow]
        calc n / 128 * (128 * 2 ^ (7 * k)) = 128 * (n / 128) * 2 ^ (7 * k) := by ring
          _ ≤ n * 2 ^ (7 * k) := Nat.mul_le_mul_right _ (by omega)
          _ < 4294967296 := hk
      have hrec := ih g (n / 128) (k + 1) (v + n % 128 * 2 ^ (7 * k)) hf0 (by omega) hdiv hk'
      simp only [writeVarInt, hz, ne_eq, not_false_eq_true, if_true, List.cons_append,
        readVarInt, List.length_cons]
      have h128 : 128 ≤ n % 128 + 128 := by omega
      have hm : (n % 128 + 128) % 128 = n % 128 := by omega
      simp only [h128, if_true, hm, Nat.mod_eq_of_lt hlow]
      rw [hrec, hpow]
      have hsum : v + n % 128 * 2 ^ (7 * k) + n / 128 * (128 * 2 ^ (7 * k)) =
          v + n * 2 ^ (7 * k) := by
        have : n * 2 ^ (7 * k) = (n % 128 + 128 * (n / 128)) * 2 ^ (7 * k) := by
          rw [← hsplit]
        rw [this]
        ring
      rw [hsum, show k + 1 + (writeVarInt f (n / 128)).length =
        k + ((writeVarInt f (n / 128)).length + 1) by omega]

/-- An int32 written by `VarInt.WriteTo` is read back by `VarInt.ReadFrom`. -/
theorem VarInt_ReadFrom_WriteTo (v : Int) (rest : List Nat)
    (hlo : -2147483648 ≤ v) (hhi : v < 2147483648) :
    VarInt.ReadFrom (VarInt.WriteTo v ++ rest) =
      some (v, (VarInt.WriteTo v).length, rest) := by
  have hu : (v % 4294967296).toNat < 4294967296 := by omega
  have h := readVarInt_writeVarInt rest 5 6 (v % 4294967296).toNat 0 0 (by norm_num)
    (by norm_num) (lt_of_lt_of_le hu (by norm_num)) (by simpa using hu)
  unfold VarInt.ReadFrom VarInt.WriteTo
  rw [h]
  simp only [Nat.mul_zero, pow_zero, Nat.mul_one, Nat.zero_add, Option.some.injEq,
    Prod.mk.injEq, and_true]
  unfold toInt32
  split <;> omega

/-- A packet framed by `Pack` is decoded by `UnPack` to itself: the codec's
own framing is one of the framings a client can send. -/
theorem UnPack_Pack (p : Packet) (hlo : -2147483648 ≤ p.ID) (hhi : p.ID < 2147483648)
    (hlen : p.Data.length + 5 < 2147483648) :
    Packet.UnPack p.Pack = some (p, []) := by
  have hidlen : (VarInt.WriteTo p.ID).length ≤ 5 := by
    unfold VarInt.WriteTo
    generalize (p.ID % 4294967296).toNat = n
    simp only [writeVarInt]
    repeat' split
    all_goals simp
  unfold Packet.UnPack Packet.Pack
  rw [List.append_assoc, VarInt_ReadFrom_WriteTo _ _ (by omega) (by omega)]
  simp only
  rw [VarInt_ReadFrom_WriteTo _ _ hlo hhi]
  simp


/-! ## Login gate -/

/-- C1: in a login attempt that the capacity check lets through, with every
configured list tag resolving to a set, the handler rejects the login (writes
the kick disconnect packet to the client and returns `(nil, ErrRejectedLogin)`)
if and only if the mode is Allow and the name is in none of the lists, or the
mode is Block and the name is in one of them; otherwise it writes nothing to
the client and goes on to dial the backend; in Default mode the login is
never rejected. -/
theorem name_check_rejects_iff (env : Env) (s : ConfigProxyService) (options : Options)
    (hs : Handshake) (name : String)
    (h : LoginAttempt env hs name)
    (hcap : ¬ (s.Minecraft.OnlineCount.EnableMaxLimit = true ∧
      s.Minecraft.OnlineCount.Max ≤ options.GetCount))
    (hres : AllResolve env s.Minecraft.NameAccess.ListTags) :
    (((NewConnHandler env s options).conn = none ∧
      (NewConnHandler env s options).err = some ErrRejectedLogin ∧
      Event.WritePacket .client 0 (Marshal env 0 [env.generateKickMessage s name])
        (env.ClientWritePacket 0 (Marshal env 0 [env.generateKickMessage s name]))
        ∈ (NewConnHandler env s options).trace) ↔
      ((options.McNameMode = .AllowMode ∧
          ¬ Matched env s.Minecraft.NameAccess.ListTags name) ∨
       (options.McNameMode = .BlockMode ∧
          Matched env s.Minecraft.NameAccess.ListTags name))) ∧
    (¬ ((options.McNameMode = .AllowMode ∧
          ¬ Matched env s.Minecraft.NameAccess.ListTags name) ∨
        (options.McNameMode = .BlockMode ∧
          Matched env s.Minecraft.NameAccess.ListTags name)) →
      (NewConnHandler env s options).err ≠ some ErrRejectedLogin ∧
      (∀ e ∈ (NewConnHandler env s options).trace, e.isClientWrite = false) ∧
      Event.Dial "tcp" (dialAddress s) (options.Out "tcp" (dialAddress s))
        ∈ (NewConnHandler env s options).trace) ∧
    (options.McNameMode = .DefaultMode →
      (NewConnHandler env s options).err ≠ some ErrRejectedLogin) := by
  have hcap' : capacityExceeded s options = false := by
    simpa [capacityExceeded] using hcap
  obtain ⟨acc, hacc⟩ := nameCheck_resolved env s options name hres
  have hkick := nameCheck_kick env s options name acc hacc
  unfold KickDecision at hkick
  have hev := nameCheck_events env s options name
  have hct := capacityTrace_events s options
  obtain ⟨c, e, T, hshape, hne, hT, -, -, -⟩ :=
    dialAndForward_shape env s options hs (secondPacket env)
  have hrun : NewConnHandler env s options =
      badPacketPanicRecover (NewConnHandlerBody env s options) := rfl
  rw [hrun, body_of_login env s options hs name h, hcap',
    nameGate_of env s options hs _ name acc hacc]
  by_cases hk : acc = "DENY" ∨ acc = "REJECT"
  · have hK := hkick.mp hk
    simp only [hk, if_true, badPacketPanicRecover]
    refine ⟨?_, fun hn => absurd hK hn, ?_⟩
    · simp [hK]
    · intro hd
      rcases hK with ⟨hm, _⟩ | ⟨hm, _⟩ <;> simp [hd] at hm
  · have hK : ¬ _ := fun hK => hk (hkick.mpr hK)
    simp only [hk, if_false, hshape, badPacketPanicRecover]
    have herr : e ≠ some ErrRejectedLogin := hne
    refine ⟨?_, fun _ => ⟨herr, ?_, by simp⟩, fun _ => herr⟩
    · constructor
      · rintro ⟨-, h2, -⟩
        exact absurd h2 herr
      · intro hK'
        exact absurd hK' hK
    · intro x hx
      simp only [Bool.false_eq_true, if_false, List.mem_cons, List.mem_append] at hx
      rcases hx with rfl | rfl | hx | hx | rfl | hx
      · rfl
      · rfl
      · rw [hct x hx]; rfl
      · rcases hev x hx with ⟨l, b, rfl⟩ | ⟨l, b, rfl⟩ <;> rfl
      · rfl
      · rcases hT x hx with rfl | ⟨k, q, r, rfl⟩ <;> rfl

/-- Witness of C1: Allow-mode with lists `A`, `B` and `bob` only in `B`
proceeds to the dial (ALLOW); Block-mode with list `A` alone, which does not
hold `bob`, is not rejected either (PASS). -/
theorem name_check_rejects_iff_witness :
    LoginAttempt (exampleClient 2) (exampleHandshake 2) "bob" ∧
    AllResolve (exampleClient 2) exampleService.Minecraft.NameAccess.ListTags ∧
    (exampleClient 2).GetTargetList "A" = some ["alice"] ∧
    (exampleClient 2).GetTargetList "B" = some ["bob"] ∧
    ((NewConnHandler (exampleClient 2) exampleService
        (exampleOptions .AllowMode 3 none)).err ≠ some ErrRejectedLogin ∧
      Event.Dial "tcp" (dialAddress exampleService) none ∈
        (NewConnHandler (exampleClient 2) exampleService
          (exampleOptions .AllowMode 3 none)).trace) ∧
    (NewConnHandler (exampleClient 2) listAService
        (exampleOptions .BlockMode 3 none)).err ≠ some ErrRejectedLogin := by
  have hla : LoginAttempt (exampleClient 2) (exampleHandshake 2) "bob" :=
    ⟨⟨rfl, rfl⟩, by decide, rfl⟩
  have hres : AllResolve (exampleClient 2) exampleService.Minecraft.NameAccess.ListTags := by
    intro l hl
    simp only [exampleService, List.mem_cons, List.mem_singleton, List.not_mem_nil,
      or_false] at hl
    rcases hl with rfl | rfl
    · exact ⟨["alice"], rfl⟩
    · exact ⟨["bob"], rfl⟩
  have hresA : AllResolve (exampleClient 2) listAService.Minecraft.NameAccess.ListTags := by
    intro l hl
    simp only [listAService, List.mem_singleton] at hl
    subst hl
    exact ⟨["alice"], rfl⟩
  have hin : Matched (exampleClient 2) exampleService.Minecraft.NameAccess.ListTags "bob" :=
    ⟨"B", by decide, ["bob"], rfl, by decide⟩
  have hout : ¬ Matched (exampleClient 2) listAService.Minecraft.NameAccess.ListTags "bob" := by
    rintro ⟨l, hl, st, h1, h2⟩
    simp only [listAService, List.mem_singleton] at hl
    subst hl
    have h3 : st = ["alice"] := (Option.some.inj h1).symm
    subst h3
    revert h2
    decide
  have hallow := (name_check_rejects_iff (exampleClient 2) exampleService
    (exampleOptions .AllowMode 3 none) (exampleHandshake 2) "bob" hla (by decide) hres).2.1
    (by
      rintro (⟨-, hn⟩ | ⟨hm, -⟩)
      · exact hn hin
      · cases hm)
  have hblock := (name_check_rejects_iff (exampleClient 2) listAService
    (exampleOptions .BlockMode 3 none) (exampleHandshake 2) "bob" hla (by decide) hresA).2.1
    (by
      rintro (⟨hm, -⟩ | ⟨-, hy⟩)
      · cases hm
      · exact hout hy)
  exact ⟨hla, hres, rfl, rfl, ⟨hallow.1, hallow.2.2⟩, hblock.1⟩

/-- C2: in a login attempt with capacity limiting enabled and the active
connection count at or above the configured maximum, whatever the name-access
mode and the lists, the handler reads the counter, writes the
player-limit-exceeded disconnect packet to the client, closes the client and
returns `(nil, ErrRejectedLogin)`: it makes no dial and consults no list. -/
theorem capacity_check_rejects_first (env : Env) (s : ConfigProxyService) (options : Options)
    (hs : Handshake) (name : String)
    (h : LoginAttempt env hs name)
    (hen : s.Minecraft.OnlineCount.EnableMaxLimit = true)
    (hfull : s.Minecraft.OnlineCount.Max ≤ options.GetCount) :
    NewConnHandler env s options =
      { conn := none, err := some ErrRejectedLogin,
        trace := [.ReadPacket 0 (handshakePacket env) none,
                  .ReadPacket 1 (secondPacket env) (env.ReadPacket 1 (handshakePacket env)).2,
                  .GetCount options.GetCount,
                  .WritePacket .client 0
                    (Marshal env 0 [env.generatePlayerNumberLimitExceededMessage s name])
                    (env.ClientWritePacket 0
                      (Marshal env 0 [env.generatePlayerNumberLimitExceededMessage s name])),
                  .SetLinger 10, .Close .client] } ∧
    ∀ e ∈ (NewConnHandler env s options).trace,
      e.isDial = false ∧ (∀ l b, e ≠ .GetTargetList l b) ∧ (∀ l n b, e ≠ .Has l n b) := by
  have hcap : capacityExceeded s options = true := by
    simp [capacityExceeded, hen, hfull]
  have hrun : NewConnHandler env s options =
      { conn := none, err := some ErrRejectedLogin,
        trace := [.ReadPacket 0 (handshakePacket env) none,
                  .ReadPacket 1 (secondPacket env) (env.ReadPacket 1 (handshakePacket env)).2,
                  .GetCount options.GetCount,
                  .WritePacket .client 0
                    (Marshal env 0 [env.generatePlayerNumberLimitExceededMessage s name])
                    (env.ClientWritePacket 0
                      (Marshal env 0 [env.generatePlayerNumberLimitExceededMessage s name])),
                  .SetLinger 10, .Close .client] } := by
    unfold NewConnHandler
    rw [body_of_login env s options hs name h, hcap]
    simp [badPacketPanicRecover, capacityTrace, hen]
  refine ⟨hrun, ?_⟩
  rw [hrun]
  intro e he
  simp only [List.mem_cons, List.mem_singleton, List.not_mem_nil, or_false] at he
  rcases he with rfl | rfl | rfl | rfl | rfl | rfl <;> simp [Event.isDial]

/-- Witness of C2: with the limit at 20 and 20 active connections the login
of `bob` is rejected without a dial, in Allow mode with `bob` on list `B`. -/
theorem capacity_check_rejects_first_witness :
    LoginAttempt (exampleClient 2) (exampleHandshake 2) "bob" ∧
    exampleService.Minecraft.OnlineCount.Max = 20 ∧
    (NewConnHandler (exampleClient 2) exampleService
        (exampleOptions .AllowMode 20 none)).err = some ErrRejectedLogin ∧
    ∀ e ∈ (NewConnHandler (exampleClient 2) exampleService
        (exampleOptions .AllowMode 20 none)).trace, e.isDial = false := by
  have hla : LoginAttempt (exampleClient 2) (exampleHandshake 2) "bob" :=
    ⟨⟨rfl, rfl⟩, by decide, rfl⟩
  have h := capacity_check_rejects_first (exampleClient 2) exampleService
    (exampleOptions .AllowMode 20 none) (exampleHandshake 2) "bob" hla rfl (by decide)
  exact ⟨hla, rfl, by rw [h.1], fun e he => (h.2 e he).1⟩

/-- C3: over the trace of calls of the handler, (1) an execution that returns
`ErrRejectedLogin` contains no dial; (2) in a login-branch execution, when
the trace contains a dial, the capacity condition was false, the login-start
packet scanned to a name on which the name check did not resolve to a kick,
there is no dial before that one, and after it there is no further dial and
no policy check (counter read, list lookup or membership query): every list
query precedes the only dial. -/
theorem dial_only_after_checks (env : Env) (s : ConfigProxyService) (options : Options) :
    ((NewConnHandler env s options).err = some ErrRejectedLogin →
      ∀ e ∈ (NewConnHandler env s options).trace, e.isDial = false) ∧
    (∀ hs, HandshakeRead env hs → hs.nextState ≠ 1 →
      ∀ pre post network address err,
        (NewConnHandler env s options).trace = pre ++ Event.Dial network address err :: post →
        ¬ (s.Minecraft.OnlineCount.EnableMaxLimit = true ∧
            s.Minecraft.OnlineCount.Max ≤ options.GetCount) ∧
        (∃ name, env.ScanString (secondPacket env) = .ok name ∧
            ¬ KickDecision env s options name) ∧
        (∀ e ∈ pre, e.isDial = false) ∧
        (∀ e ∈ post, e.isCheck = false ∧ e.isDial = false)) := by
  have hpre := loginOpening_not_dial env s options
  constructor
  · intro herr
    cases hr : (env.ReadPacket 0 { ID := 0, Data := [] }).2 with
    | some code =>
      rw [body_of_unreadable env s options code hr] at herr
      simp [ErrRejectedLogin, ErrSuccessfullyHandledMOTDRequest] at herr
    | none =>
      by_cases hscan : ∃ hs, env.ScanHandshake (handshakePacket env) = .ok hs
      · obtain ⟨hs, hscan⟩ := hscan
        have hh : HandshakeRead env hs := ⟨hr, hscan⟩
        by_cases hst : hs.nextState = 1
        · rw [body_of_status env s options hs hh hst] at herr ⊢
          split at herr
          · split at herr <;>
              simp [ErrRejectedLogin, ErrSuccessfullyHandledMOTDRequest] at herr
          · rename_i hm
            simp [hm, Event.isDial]
        · by_cases hn : ∃ name, env.ScanString (secondPacket env) = .ok name
          · obtain ⟨name, hn⟩ := hn
            have hnc := nameCheck_not_dial env s options name
            rcases login_paths env s options hs name ⟨hh, hst, hn⟩ with
              ⟨-, hrun⟩ | ⟨-, -, hrun⟩ | ⟨-, -, hrun⟩ | ⟨-, -, c, e, T, hrun, hne, -⟩
            · rw [hrun]
              intro x hx
              simp only [List.mem_append, List.mem_cons, List.mem_singleton,
                List.not_mem_nil, or_false] at hx
              rcases hx with hx | rfl | rfl | rfl
              · exact hpre x hx
              all_goals rfl
            · rw [hrun] at herr
              simp [ErrRejectedLogin, ErrSuccessfullyHandledMOTDRequest] at herr
            · rw [hrun]
              intro x hx
              simp only [List.mem_append, List.mem_cons, List.mem_singleton,
                List.not_mem_nil, or_false] at hx
              rcases hx with (hx | hx) | rfl | rfl | rfl
              · exact hpre x hx
              · exact hnc x hx
              all_goals rfl
            · rw [hrun] at herr
              exact absurd herr hne
          · have hu := body_of_unnamed env s options hs hh hst
              (fun name hname => hn ⟨name, hname⟩)
            exact absurd herr hu.2.1
      · have hu := body_of_unscannable env s options hr
          (fun hs hhs => hscan ⟨hs, hhs⟩)
        exact absurd herr hu.2.1
  · intro hs hh hst pre post network address err htr
    have hmem : Event.Dial network address err ∈ (NewConnHandler env s options).trace := by
      rw [htr]; simp
    by_cases hn : ∃ name, env.ScanString (secondPacket env) = .ok name
    · obtain ⟨name, hn⟩ := hn
      have hnc := nameCheck_not_dial env s options name
      rcases login_paths env s options hs name ⟨hh, hst, hn⟩ with
        ⟨-, hrun⟩ | ⟨-, -, hrun⟩ | ⟨-, -, hrun⟩ | ⟨hcap, hK, c, e, T, hrun, -, hT, -⟩
      · rw [hrun] at hmem
        simp only [List.mem_append, List.mem_cons, List.mem_singleton,
          List.not_mem_nil, or_false] at hmem
        rcases hmem with hx | hx | hx | hx
        · have := hpre _ hx
          simp [Event.isDial] at this
        all_goals cases hx
      · rw [hrun] at hmem
        simp only [List.mem_append, List.mem_cons, List.mem_singleton,
          List.not_mem_nil, or_false] at hmem
        rcases hmem with (hx | hx) | hx
        · have := hpre _ hx
          simp [Event.isDial] at this
        · have := hnc _ hx
          simp [Event.isDial] at this
        · cases hx
      · rw [hrun] at hmem
        simp only [List.mem_append, List.mem_cons, List.mem_singleton,
          List.not_mem_nil, or_false] at hmem
        rcases hmem with (hx | hx) | hx | hx | hx
        · have := hpre _ hx
          simp [Event.isDial] at this
        · have := hnc _ hx
          simp [Event.isDial] at this
        all_goals cases hx
      · rw [hrun] at htr
        have hA : ∀ x ∈ loginOpening env s options ++ (nameCheck env s options name).2,
            x.isDial = false := by
          intro x hx
          rcases List.mem_append.mp hx with hx | hx
          · exact hpre x hx
          · exact hnc x hx
        have hTd : ∀ x ∈ T, x.isDial = false ∧ x.isCheck = false := by
          intro x hx
          rcases hT x hx with rfl | ⟨k, q, r, rfl⟩ <;> exact ⟨rfl, rfl⟩
        obtain ⟨hp, hq⟩ := split_at_dial _ T pre post
          (.Dial "tcp" (dialAddress s) (options.Out "tcp" (dialAddress s)))
          (.Dial network address err) hA (fun x hx => (hTd x hx).1) rfl htr
        subst hp hq
        refine ⟨?_, ⟨name, hn, hK⟩, hA, fun x hx => ⟨(hTd x hx).2, (hTd x hx).1⟩⟩
        simpa [capacityExceeded] using hcap
    · have hu := body_of_unnamed env s options hs hh hst
        (fun name hname => hn ⟨name, hname⟩)
      rcases hu.2.2 with h1 | h1 <;> rw [h1] at hmem <;> simp at hmem

/-! ## Host rewriter -/

/-- C4: with hostname rewriting enabled, the handshake the login branch
writes to the backend carries the hostname `RewrittenHostname ++ "\x00FML\x00"`
when `IgnoreFMLSuffix` is false and the client's hostname ends with
`"\x00FML\x00"`, and `RewrittenHostname` alone otherwise; after a successful
dial that handshake is written. -/
theorem forwarded_hostname_rewritten (env : Env) (s : ConfigProxyService) (options : Options)
    (hs : Handshake) (hh : HandshakeRead env hs) (hst : hs.nextState ≠ 1)
    (hrw : s.Minecraft.EnableHostnameRewrite = true) :
    (Event.Dial "tcp" (dialAddress s) none ∈ (NewConnHandler env s options).trace →
      ∃ q r, Event.WritePacket .backend 0 q r ∈ (NewConnHandler env s options).trace) ∧
    (∀ q r, Event.WritePacket .backend 0 q r ∈ (NewConnHandler env s options).trace →
      ((s.Minecraft.IgnoreFMLSuffix = false ∧
          (∃ pre : String, hs.hostname = pre ++ "\x00FML\x00")) →
        q = Marshal env 0 [.varInt hs.protocol,
              .string (s.Minecraft.RewrittenHostname ++ "\x00FML\x00"),
              .unsignedShort (s.TargetPort % 65536), .byte 2]) ∧
      (¬ (s.Minecraft.IgnoreFMLSuffix = false ∧
          (∃ pre : String, hs.hostname = pre ++ "\x00FML\x00")) →
        q = Marshal env 0 [.varInt hs.protocol,
              .string s.Minecraft.RewrittenHostname,
              .unsignedShort (s.TargetPort % 65536), .byte 2])) := by
  obtain ⟨hex, huniq⟩ := login_handshake_write env s options hs hh hst
  refine ⟨fun hd => ?_, fun q r hq => ?_⟩
  · obtain ⟨r, hr⟩ := hex hd
    exact ⟨_, r, hr⟩
  · rw [huniq q r hq]
    have hsuf := HasSuffix_iff hs.hostname "\x00FML\x00"
    constructor
    · rintro ⟨hig, hpre⟩
      have : HasSuffix hs.hostname "\x00FML\x00" = true := hsuf.mpr hpre
      simp [forwardedHandshake, hrw, rewrittenHostname, hig, this]
    · intro hnot
      have : ¬ (s.Minecraft.IgnoreFMLSuffix = false ∧
          HasSuffix hs.hostname "\x00FML\x00" = true) := fun h => hnot ⟨h.1, hsuf.mp h.2⟩
      simp only [forwardedHandshake, hrw, if_true, rewrittenHostname]
      rw [if_neg]
      simpa using this

/-- Witness of C4: hostname `example.com\0FML\0`, replacement `proxy.local`:
with the suffix kept the forwarded hostname is `proxy.local\0FML\0`, with the
suffix ignored it is `proxy.local`. -/
theorem forwarded_hostname_rewritten_witness :
    HandshakeRead (exampleClient 2) (exampleHandshake 2) ∧
    (∀ q r, Event.WritePacket .backend 0 q r ∈
        (NewConnHandler (exampleClient 2) exampleService
          (exampleOptions .DefaultMode 0 none)).trace →
      q = Marshal (exampleClient 2) 0 [.varInt 47, .string "proxy.local\x00FML\x00",
            .unsignedShort 25565, .byte 2]) ∧
    (∀ q r, Event.WritePacket .backend 0 q r ∈
        (NewConnHandler (exampleClient 2) ignoreSuffixService
          (exampleOptions .DefaultMode 0 none)).trace →
      q = Marshal (exampleClient 2) 0 [.varInt 47, .string "proxy.local",
            .unsignedShort 25565, .byte 2]) ∧
    ∃ q r, Event.WritePacket .backend 0 q r ∈
        (NewConnHandler (exampleClient 2) exampleService
          (exampleOptions .DefaultMode 0 none)).trace := by
  have hh : HandshakeRead (exampleClient 2) (exampleHandshake 2) := ⟨rfl, rfl⟩
  have keep := forwarded_hostname_rewritten (exampleClient 2) exampleService
    (exampleOptions .DefaultMode 0 none) (exampleHandshake 2) hh (by decide) rfl
  have drop := forwarded_hostname_rewritten (exampleClient 2) ignoreSuffixService
    (exampleOptions .DefaultMode 0 none) (exampleHandshake 2) hh (by decide) rfl
  refine ⟨hh, fun q r hq => ?_, fun q r hq => ?_, keep.1 (by decide)⟩
  · exact (keep.2 q r hq).1 ⟨rfl, "example.com", rfl⟩
  · exact (drop.2 q r hq).2 (fun h => by cases h.1)

/-- C5: the handshake the login branch writes to the backend has packet id
0x00 and the fields (protocol version of the client, hostname, port, 2): the
protocol version is unchanged and nextState is 2 whatever the client sent;
with rewriting enabled the port is the configured `TargetPort` converted to
uint16, so `TargetPort` itself for a 16-bit port; with rewriting disabled
hostname and port are the client's; after a successful dial that handshake
is written. -/
theorem forwarded_handshake_fields (env : Env) (s : ConfigProxyService) (options : Options)
    (hs : Handshake) (hh : HandshakeRead env hs) (hst : hs.nextState ≠ 1) :
    (Event.Dial "tcp" (dialAddress s) none ∈ (NewConnHandler env s options).trace →
      ∃ q r, Event.WritePacket .backend 0 q r ∈ (NewConnHandler env s options).trace) ∧
    (∀ q r, Event.WritePacket .backend 0 q r ∈ (NewConnHandler env s options).trace →
      q.ID = 0 ∧
      ∃ host port,
        q = Marshal env 0 [.varInt hs.protocol, .string host, .unsignedShort port, .byte 2] ∧
        (s.Minecraft.EnableHostnameRewrite = true →
          port = s.TargetPort % 65536 ∧ (s.TargetPort < 65536 → port = s.TargetPort)) ∧
        (s.Minecraft.EnableHostnameRewrite = false →
          host = hs.hostname ∧ port = hs.port)) := by
  obtain ⟨hex, huniq⟩ := login_handshake_write env s options hs hh hst
  refine ⟨fun hd => ?_, fun q r hq => ?_⟩
  · obtain ⟨r, hr⟩ := hex hd
    exact ⟨_, r, hr⟩
  · rw [huniq q r hq]
    cases hrw : s.Minecraft.EnableHostnameRewrite with
    | true =>
      refine ⟨by simp [forwardedHandshake, hrw, Marshal], rewrittenHostname s hs.hostname,
        s.TargetPort % 65536, by simp [forwardedHandshake, hrw], ?_, by simp⟩
      intro _
      exact ⟨rfl, fun hlt => Nat.mod_eq_of_lt hlt⟩
    | false =>
      refine ⟨by simp [forwardedHandshake, hrw, Marshal], hs.hostname, hs.port,
        by simp [forwardedHandshake, hrw], by simp, ?_⟩
      intro _
      exact ⟨rfl, rfl⟩

/-- Witness of C5: without rewriting, the forwarded handshake carries the
hostname and port of the client and nextState 2. -/
theorem forwarded_handshake_fields_witness :
    HandshakeRead (exampleClient 2) (exampleHandshake 2) ∧
    ∀ q r, Event.WritePacket .backend 0 q r ∈
        (NewConnHandler (exampleClient 2) plainService
          (exampleOptions .DefaultMode 0 none)).trace →
      q = Marshal (exampleClient 2) 0 [.varInt 47, .string "example.com\x00FML\x00",
            .unsignedShort 25565, .byte 2] := by
  have hh : HandshakeRead (exampleClient 2) (exampleHandshake 2) := ⟨rfl, rfl⟩
  refine ⟨hh, fun q r hq => ?_⟩
  obtain ⟨-, host, port, hq', -, hplain⟩ :=
    (forwarded_handshake_fields (exampleClient 2) plainService
      (exampleOptions .DefaultMode 0 none) (exampleHandshake 2) hh (by decide)).2 q r hq
  obtain ⟨h1, h2⟩ := hplain rfl
  rw [hq', h1, h2]
  rfl

/-! ## Status responder -/

/-- C6 as stated fails: a client frames the handshake with a padded length
(`96 00` for 22); the handler decodes it and the codec writes the packet to
the backend in its shortest framing (`16`), so the bytes written are not the
bytes received followed by `[1, 0]`, although both writes succeed. -/
theorem status_passthrough_reframes_padded_handshake :
    HandshakeRead (exampleClient 1) (exampleHandshake 1) ∧
    exampleService.Minecraft.MotdDescription = "" ∧
    exampleService.Minecraft.MotdFavicon = "" ∧
    ReceivedAs (exampleClient 1) paddedHandshakeFrame ∧
    backendBytes (NewConnHandler (exampleClient 1) exampleService
        (exampleOptions .DefaultMode 0 none)).trace =
      some ([22, 0, 47, 16, 101, 120, 97, 109, 112, 108, 101, 46, 99, 111, 109, 0, 70, 77, 76,
             0, 99, 221, 1] ++ [1, 0]) ∧
    ¬ ReplaysReceivedBytes
        (NewConnHandler (exampleClient 1) exampleService (exampleOptions .DefaultMode 0 none))
        paddedHandshakeFrame := by
  refine ⟨⟨rfl, rfl⟩, rfl, rfl, by unfold ReceivedAs; decide, by decide, ?_⟩
  intro h
  have h1 := h.1
  revert h1
  decide

/-- C6 (amended): for a handshake with nextState 1, no MOTD override, a
successful dial and two successful backend writes, the handler writes to the
backend the packet it decoded from the client (same id and payload) in the
codec's framing, then the status request `[1, 0]`, and nothing else, and
returns the backend connection with a nil error; the bytes written are the
bytes received followed by `[1, 0]` exactly when the client sent the
handshake in that framing. -/
theorem status_passthrough_forwards_decoded_handshake (env : Env) (s : ConfigProxyService)
    (options : Options) (hs : Handshake) (hh : HandshakeRead env hs)
    (hst : hs.nextState = 1)
    (hd : s.Minecraft.MotdDescription = "") (hf : s.Minecraft.MotdFavicon = "")
    (hdial : options.Out "tcp" (dialAddress s) = none)
    (hw0 : env.BackendWritePacket 0 (handshakePacket env) = none)
    (hw1 : env.BackendWrite [1, 0] = none) :
    NewConnHandler env s options =
      { conn := some .backend, err := none,
        trace := [.ReadPacket 0 (handshakePacket env) none,
                  .Dial "tcp" (dialAddress s) none,
                  .WritePacket .backend 0 (handshakePacket env) none,
                  .Write .backend [1, 0] none] } ∧
    backendBytes (NewConnHandler env s options).trace =
      some ((handshakePacket env).Pack ++ [1, 0]) ∧
    (∀ wire, ReceivedAs env wire →
      (ReplaysReceivedBytes (NewConnHandler env s options) wire ↔
        wire = (handshakePacket env).Pack)) := by
  have hrun : NewConnHandler env s options =
      { conn := some .backend, err := none,
        trace := [.ReadPacket 0 (handshakePacket env) none,
                  .Dial "tcp" (dialAddress s) none,
                  .WritePacket .backend 0 (handshakePacket env) none,
                  .Write .backend [1, 0] none] } := by
    rw [body_of_status env s options hs hh hst]
    simp [hd, hf, hdial, hw0, hw1]
  have hbytes : backendBytes (NewConnHandler env s options).trace =
      some ((handshakePacket env).Pack ++ [1, 0]) := by
    rw [hrun]
    simp [backendBytes, Event.isFailedBackendWrite, Event.backendBytes]
  refine ⟨hrun, hbytes, fun wire _ => ?_⟩
  unfold ReplaysReceivedBytes
  rw [hbytes, hrun]
  constructor
  · rintro ⟨h, -, -⟩
    exact (List.append_cancel_right (Option.some.inj h)).symm
  · intro h
    exact ⟨by rw [h], rfl, rfl⟩

/-- Witness of C6: the status query of the scenario, sent in the codec's
framing, reaches the backend byte for byte, followed by `[1, 0]`. -/
theorem status_passthrough_forwards_decoded_handshake_witness :
    HandshakeRead (exampleClient 1) (exampleHandshake 1) ∧
    ReceivedAs (exampleClient 1) (exampleHandshakePacket 1).Pack ∧
    ReplaysReceivedBytes
      (NewConnHandler (exampleClient 1) exampleService (exampleOptions .DefaultMode 0 none))
      (exampleHandshakePacket 1).Pack := by
  have hh : HandshakeRead (exampleClient 1) (exampleHandshake 1) := ⟨rfl, rfl⟩
  have hrecv : ReceivedAs (exampleClient 1) (exampleHandshakePacket 1).Pack := by
    unfold ReceivedAs
    decide
  exact ⟨hh, hrecv,
    ((status_passthrough_forwards_decoded_handshake (exampleClient 1) exampleService
      (exampleOptions .DefaultMode 0 none) (exampleHandshake 1) hh rfl rfl rfl rfl rfl
      rfl).2.2 _ hrecv).mpr rfl⟩

/-- C7: for a handshake with nextState 1 and an MOTD override configured,
the handler makes no dial: it reads the status request, writes the generated
status response, reads the ping, writes back to the client the very packet
that read produced, closes the client and returns
`(nil, ErrSuccessfullyHandledMOTDRequest)`; so whatever ping packet the
client sent is echoed with the same id and payload. -/
theorem status_override_echoes_ping (env : Env) (s : ConfigProxyService)
    (options : Options) (hs : Handshake) (hh : HandshakeRead env hs)
    (hst : hs.nextState = 1)
    (hmotd : s.Minecraft.MotdDescription ≠ "" ∨ s.Minecraft.MotdFavicon ≠ "") :
    NewConnHandler env s options =
      { conn := none, err := some ErrSuccessfullyHandledMOTDRequest,
        trace := [.ReadPacket 0 (handshakePacket env) none,
                  .ReadPacket 1 (secondPacket env) (env.ReadPacket 1 (handshakePacket env)).2,
                  .WritePacket .client 0 (env.generateMotdPacket hs.protocol s options)
                    (env.ClientWritePacket 0 (env.generateMotdPacket hs.protocol s options)),
                  .ReadPacket 2 (pingPacket env) (env.ReadPacket 2 (secondPacket env)).2,
                  .WritePacket .client 1 (pingPacket env)
                    (env.ClientWritePacket 1 (pingPacket env)),
                  .Close .client] } ∧
    (∀ e ∈ (NewConnHandler env s options).trace, e.isDial = false) ∧
    (∀ ping, env.ReadPacket 2 (secondPacket env) = (ping, none) →
      ∃ r, Event.WritePacket .client 1 ping r ∈ (NewConnHandler env s options).trace ∧
        ∀ q r', Event.WritePacket .client 1 q r' ∈ (NewConnHandler env s options).trace →
          q = ping) := by
  have hne : ¬ (s.Minecraft.MotdDescription = "" ∧ s.Minecraft.MotdFavicon = "") := by
    rintro ⟨h1, h2⟩
    rcases hmotd with h | h
    · exact h h1
    · exact h h2
  have hrun := body_of_status env s options hs hh hst
  simp only [hne, if_false] at hrun
  rw [hrun]
  refine ⟨rfl, ?_, ?_⟩
  · intro e he
    simp only [List.mem_cons, List.mem_singleton, List.not_mem_nil, or_false] at he
    rcases he with rfl | rfl | rfl | rfl | rfl | rfl <;> rfl
  · intro ping hping
    have hp : pingPacket env = ping := by simp [pingPacket, hping]
    refine ⟨env.ClientWritePacket 1 ping, by simp [hp], ?_⟩
    intro q r' hq
    simp [hp] at hq
    exact hq.1

/-- Witness of C7: with an MOTD override the ping of the scenario is echoed. -/
theorem status_override_echoes_ping_witness :
    HandshakeRead (exampleClient 1) (exampleHandshake 1) ∧
    (exampleClient 1).ReadPacket 2 (secondPacket (exampleClient 1)) = (examplePing, none) ∧
    ∃ r, Event.WritePacket .client 1 examplePing r ∈
      (NewConnHandler (exampleClient 1) motdService
        (exampleOptions .DefaultMode 0 none)).trace := by
  have hh : HandshakeRead (exampleClient 1) (exampleHandshake 1) := ⟨rfl, rfl⟩
  obtain ⟨r, hr, -⟩ := (status_override_echoes_ping (exampleClient 1) motdService
    (exampleOptions .DefaultMode 0 none) (exampleHandshake 1) hh rfl
    (Or.inl (by decide))).2.2 examplePing rfl
  exact ⟨hh, rfl, r, hr⟩

/-! ## Faults, failures and socket ownership -/

/-- C8 (code defect): on a first packet whose scan panics, the deferred
recover only logs, and the handler returns `(nil, nil)`: the error is nil,
not a typed failure. -/
theorem scan_panic_returns_nil_error :
    NewConnHandler foreignClient exampleService (exampleOptions .DefaultMode 0 none) =
      { conn := none, err := none,
        trace := [.ReadPacket 0 { ID := 0, Data := [47, 255, 255, 255, 255, 15] } none,
                  .Recovered] } := by
  rfl

/-- C9 (code defect): in the status passthrough the error of the handshake
write to the backend is dropped: after the failed write the handler still
writes the status request and returns the backend connection with a nil
error. -/
theorem status_passthrough_ignores_write_failure :
    NewConnHandler brokenBackend exampleService (exampleOptions .DefaultMode 0 none) =
      { conn := some .backend, err := none,
        trace := [.ReadPacket 0 (exampleHandshakePacket 1) none,
                  .Dial "tcp" "10.0.0.2:25565" none,
                  .WritePacket .backend 0 (exampleHandshakePacket 1) (some 32),
                  .Write .backend [1, 0] (some 32)] } := by
  rfl

/-- C10 as stated fails: when the first read fails the handler returns
`(nil, err)` without having closed the client socket. -/
theorem socket_discipline_fails_on_unreadable_handshake :
    ¬ SocketDiscipline
      (NewConnHandler silentClient exampleService (exampleOptions .DefaultMode 0 none)) := by
  intro h
  have h1 := (h.1 rfl).1
  revert h1
  decide

/-- C10 (amended): the handler closes the client socket at most once; it
closes it exactly once precisely when it returns the sentinel
`ErrSuccessfullyHandledMOTDRequest` = `ErrRejectedLogin` (locally handled
status, rejected login) or when the dial fails in the login branch, and
otherwise returns with the client socket still open; when it returns a
backend connection it has closed neither socket. -/
theorem client_socket_closed_at_most_once (env : Env) (s : ConfigProxyService)
    (options : Options) :
    closes .client (NewConnHandler env s options).trace ≤ 1 ∧
    (closes .client (NewConnHandler env s options).trace = 1 ↔
      ((NewConnHandler env s options).err = some ErrSuccessfullyHandledMOTDRequest ∨
       LoginDialFailed env s (NewConnHandler env s options))) ∧
    ((NewConnHandler env s options).conn ≠ none →
      closes .client (NewConnHandler env s options).trace = 0 ∧
      closes .backend (NewConnHandler env s options).trace = 0) := by
  cases hr : (env.ReadPacket 0 { ID := 0, Data := [] }).2 with
  | some code =>
    have hno : ¬ LoginDialFailed env s (NewConnHandler env s options) := by
      rintro ⟨hs, _, hh, -⟩
      rw [hh.1] at hr
      cases hr
    have hrun := body_of_unreadable env s options code hr
    apply discipline_of_open env s _ _ _ _ hno <;> rw [hrun] <;>
      simp [closes, List.count_cons, ErrSuccessfullyHandledMOTDRequest]
  | none =>
    by_cases hscan : ∃ hs, env.ScanHandshake (handshakePacket env) = .ok hs
    · obtain ⟨hs, hscan⟩ := hscan
      have hh : HandshakeRead env hs := ⟨hr, hscan⟩
      by_cases hst : hs.nextState = 1
      · have hno : ¬ LoginDialFailed env s (NewConnHandler env s options) := by
          rintro ⟨hs', _, hh', hst', -⟩
          rw [HandshakeRead_unique env hs hs' hh hh'] at hst'
          exact hst' hst
        have hrun := body_of_status env s options hs hh hst
        by_cases hm : s.Minecraft.MotdDescription = "" ∧ s.Minecraft.MotdFavicon = ""
        · simp only [hm, and_self, if_true] at hrun
          cases hd : options.Out "tcp" (dialAddress s) with
          | some code =>
            simp only [hd] at hrun
            apply discipline_of_open env s _ _ _ _ hno <;> rw [hrun] <;>
              simp [closes, List.count_cons, ErrSuccessfullyHandledMOTDRequest]
          | none =>
            simp only [hd] at hrun
            apply discipline_of_open env s _ _ _ _ hno <;> rw [hrun] <;>
              simp [closes, List.count_cons, ErrSuccessfullyHandledMOTDRequest]
        · simp only [hm, if_false] at hrun
          apply discipline_of_closed env s <;> rw [hrun] <;>
            simp [closes, List.count_cons]
      · by_cases hn : ∃ name, env.ScanString (secondPacket env) = .ok name
        · obtain ⟨name, hn⟩ := hn
          have hA := login_checks_events env s options name
          have hc0 := count_close_checks env s options name
          rcases login_paths env s options hs name ⟨hh, hst, hn⟩ with
            ⟨-, hrun⟩ | ⟨-, -, hrun⟩ | ⟨-, -, hrun⟩ |
            ⟨-, -, c, e, T, hrun, hne, hT, hc, hfail, hok⟩
          · apply discipline_of_closed env s <;> rw [hrun] <;>
              simp [closes, List.count_cons, hc0, ErrRejectedLogin]
          · have hno : ¬ LoginDialFailed env s (NewConnHandler env s options) := by
              rintro ⟨_, code, -, -, hm⟩
              rw [hrun] at hm
              simp only [List.mem_append, List.mem_singleton] at hm
              rcases hm with hx | hx
              · have := (hA _ (List.mem_append.mpr hx)).1
                simp [Event.isDial] at this
              · cases hx
            apply discipline_of_open env s _ _ _ _ hno <;> rw [hrun] <;>
              simp [closes, List.count_cons, hc0, ErrSuccessfullyHandledMOTDRequest]
          · apply discipline_of_closed env s <;> rw [hrun] <;>
              simp [closes, List.count_cons, hc0, ErrRejectedLogin]
          · cases hd : options.Out "tcp" (dialAddress s) with
            | some code =>
              have hT1 := hfail code hd
              subst hT1
              have hcn : c = none := by
                by_contra hcne
                exact hc hcne _ (by simp) rfl
              have hyes : LoginDialFailed env s (NewConnHandler env s options) := by
                refine ⟨hs, code, hh, hst, ?_⟩
                rw [hrun, hd]
                simp
              apply discipline_of_closed env s _ _ (Or.inr hyes) <;> rw [hrun] <;>
                simp [closes, List.count_cons, hc0, hcn]
            | none =>
              have hTc : ∀ c', List.count (Event.Close c') T = 0 := by
                intro c'
                refine List.count_eq_zero.mpr (fun hx => ?_)
                rcases hT _ hx with h1 | ⟨k, q, r, h1⟩
                · exact (hok hd).2.2 _ hx h1
                · cases h1
              have hno : ¬ LoginDialFailed env s (NewConnHandler env s options) := by
                rintro ⟨_, code, -, -, hm⟩
                rw [hrun, hd] at hm
                rcases List.mem_append.mp hm with hx | hx
                · have := (hA _ hx).1
                  simp [Event.isDial] at this
                · rcases List.mem_cons.mp hx with hx | hx
                  · cases hx
                  · rcases hT _ hx with h1 | ⟨k, q, r, h1⟩ <;> cases h1
              have hne' : e ≠ some ErrSuccessfullyHandledMOTDRequest := hne
              apply discipline_of_open env s _ _ _ _ hno <;> rw [hrun] <;>
                simp [closes, List.count_cons, hc0, hTc, hne']
        · have hu := body_of_unnamed env s options hs hh hst
            (fun name hname => hn ⟨name, hname⟩)
          have hno : ¬ LoginDialFailed env s (NewConnHandler env s options) := by
            rintro ⟨_, code, -, -, hm⟩
            rcases hu.2.2 with h1 | h1 <;> rw [h1] at hm <;> simp at hm
          apply discipline_of_open env s _ _ _ hu.2.1 hno <;>
            rcases hu.2.2 with h1 | h1 <;> rw [h1] <;> simp [closes, List.count_cons]
    · have hu := body_of_unscannable env s options hr (fun hs hhs => hscan ⟨hs, hhs⟩)
      have hno : ¬ LoginDialFailed env s (NewConnHandler env s options) := by
        rintro ⟨hs, _, hh, -⟩
        exact hscan ⟨hs, hh.2⟩
      apply discipline_of_open env s _ _ _ hu.2.1 hno <;>
        rcases hu.2.2 with h1 | h1 <;> rw [h1] <;> simp [closes, List.count_cons]

end GriseoProxy
